import Mathlib

/-!
Verification of the structural diff engine of the Greek-lexicon repository:
the two comparison scripts `compare_analysis_per_sentence.py` (Mode A) and
`compare_analysis_per_word.py` (Mode B).  Decoded JSON values are embedded
as the inductive `Json`; Python `dict`/`list`/value equality (`==`) is the
function `jeq`; `dict.get(k)` (returning `None` on a missing key, with JSON
`null` also decoded to `None`) is `pyGet`; `dict.get(k, [])` followed by
list iteration is `pyGetList`.  Each report line emitted by a script is
modelled as one constructor of a structured line type (`SLine` for Mode A,
`WLine` for Mode B) carrying exactly the data interpolated into that line.
-/

/-- A decoded JSON value, as produced by `json.load`.  Numbers are modelled
as integers; only equality of values matters to the diff engine. -/
inductive Json where
  | null : Json
  | bool (b : Bool) : Json
  | str (s : String) : Json
  | num (n : Int) : Json
  | arr (xs : List Json) : Json
  | obj (fields : List (String × Json)) : Json

/-- Lookup of a key in the field list of a JSON object (first match).
Objects decoded from JSON have pairwise distinct keys, so the first match
is the only one. -/
def jlookup (k : String) : List (String × Json) → Option Json
  | [] => none
  | (k2, v) :: rest => if k2 == k then some v else jlookup k rest

mutual

/-- Python `==` on decoded JSON values: structural on scalars and lists,
and on dictionaries the CPython semantics: equal sizes and every entry of
the left dictionary found in the right one with an equal value. -/
def jeq : Json → Json → Bool
  | Json.null, Json.null => true
  | Json.bool a, Json.bool b => a == b
  | Json.str a, Json.str b => a == b
  | Json.num a, Json.num b => a == b
  | Json.arr xs, Json.arr ys => jeqList xs ys
  | Json.obj xs, Json.obj ys => xs.length == ys.length && jeqObjIn xs ys
  | _, _ => false

/-- Elementwise Python equality of two JSON lists. -/
def jeqList : List Json → List Json → Bool
  | [], [] => true
  | x :: xs, y :: ys => jeq x y && jeqList xs ys
  | _, _ => false

/-- Every entry of the first field list is present in the second with an
equal value. -/
def jeqObjIn : List (String × Json) → List (String × Json) → Bool
  | [], _ => true
  | (k, v) :: rest, ys =>
      (match jlookup k ys with
       | some w => jeq v w
       | none => false) && jeqObjIn rest ys

end

/-- Python `value.get(k)`: the value stored at `k`, or `None` when the key
is absent.  JSON `null` decodes to `None` as well, so absence and an
explicit null are both `Json.null` here, exactly as in the scripts. -/
def pyGet (v : Json) (k : String) : Json :=
  match v with
  | Json.obj fields =>
      match jlookup k fields with
      | some w => w
      | none => Json.null
  | _ => Json.null

/-- Python `value.get(k, [])` used where the scripts expect a list
(`sentences`, `analysis`): the stored list, or `[]` when the key is
absent.  (The scripts only ever apply this to well-formed documents in
which the key, when present, holds a list.) -/
def pyGetList (v : Json) (k : String) : List Json :=
  match v with
  | Json.obj fields =>
      match jlookup k fields with
      | some (Json.arr xs) => xs
      | _ => []
  | _ => []

/-- The keys of a JSON object (Python `d.keys()`); empty for non-objects. -/
def keysOf (v : Json) : List String :=
  match v with
  | Json.obj fields => fields.map Prod.fst
  | _ => []

/-- Python `isinstance(v, dict)`. -/
def isObj (v : Json) : Bool :=
  match v with
  | Json.obj _ => true
  | _ => false

/-- Code-point lexicographic comparison of character lists, the order used
by Python `sorted` on strings. -/
def charListLe : List Char → List Char → Bool
  | [], _ => true
  | _ :: _, [] => false
  | a :: as, b :: bs => if a < b then true else if b < a then false else charListLe as bs

/-- Code-point lexicographic comparison of strings. -/
def strLe (a b : String) : Bool := charListLe a.data b.data

/-- Insert a string into a sorted list of strings. -/
def insertSorted (x : String) : List String → List String
  | [] => [x]
  | y :: ys => if strLe x y then x :: y :: ys else y :: insertSorted x ys

/-- Python `sorted` on a list of strings (insertion sort; on duplicate-free
input any stable sort yields the same list). -/
def sortStrings : List String → List String
  | [] => []
  | x :: xs => insertSorted x (sortStrings xs)

/-- Python `sorted(list((t1.keys() | t2.keys()) - ignore))`: the sorted,
duplicate-free union of the keys of two tokens minus an ignore set. -/
def sorted_key_union (t1 t2 : Json) (ignore : List String) : List String :=
  sortStrings (((keysOf t1 ++ keysOf t2).dedup).filter (fun k => !(ignore.contains k)))

/-- Python `sorted(list(val1.keys() | val2.keys()))` for the one-level
`parsing_details` recursion (no ignore set is subtracted there). -/
def sorted_detail_union (v1 v2 : Json) : List String :=
  sortStrings ((keysOf v1 ++ keysOf v2).dedup)

/-- Outcome of loading one input file (`json.load` inside the `try` block
of either script). -/
inductive LoadResult where
  | ok (data : Json) : LoadResult
  | fileNotFound : LoadResult
  | jsonDecodeError : LoadResult

namespace PerSentence

/-- One structured report line of `compare_analysis_per_sentence.py`; each
constructor corresponds to one `append` site in the script and carries the
data interpolated into the emitted text. -/
inductive SLine where
  | zinOntbreekt (i : Nat) (missingInFile : Nat) : SLine
  | verschilBrontekst (i : Nat) (text1 text2 : Json) : SLine
  | tokenOntbreekt (tokval : Json) (j : Nat) (missingInFile : Nat) : SLine
  | tokenHeader (tok1 tok2 : Json) (j : Nat) : SLine
  | verschil (key : String) (val1 val2 : Json) : SLine
  | verschilDetail (key dkey : String) (dval1 dval2 : Json) : SLine
  | zinHeader (i : Nat) : SLine

/-- The sentence-level ignore set of the script (defined there but the
sentence comparison touches only `sentence_text` and `analysis`). -/
def keys_to_ignore_global : List String := ["translation_nl", "translation_en", "translation_fr"]

/-- The token-level ignore set of the per-sentence script. -/
def keys_to_ignore_token : List String := ["dictionary_entry_nl", "gloss"]

/-- The one-level recursion over `parsing_details`: for each sub-key of the
sorted union of both sub-key sets whose values differ, one value-pair line. -/
def detail_diffs (key : String) (val1 val2 : Json) : List SLine :=
  (sorted_detail_union val1 val2).flatMap (fun dkey =>
    let dval1 := pyGet val1 dkey
    let dval2 := pyGet val2 dkey
    if jeq dval1 dval2 then [] else [SLine.verschilDetail key dkey dval1 dval2])

/-- The lines appended for one differing token field: the `parsing_details`
drill-down when both values are dictionaries, a single whole-value line
otherwise. -/
def diff_lines_for_key (token1 token2 : Json) (key : String) : List SLine :=
  let val1 := pyGet token1 key
  let val2 := pyGet token2 key
  if key == "parsing_details" && isObj val1 && isObj val2 then
    detail_diffs key val1 val2
  else
    [SLine.verschil key val1 val2]

/-- The loop over the sorted token-field keys, threading the accumulated
`token_discrepancies` list: on the first differing field a token header is
appended, then the field's lines. -/
def token_field_loop (token1 token2 : Json) (j : Nat) : List String → List SLine → List SLine
  | [], td => td
  | key :: rest, td =>
      if jeq (pyGet token1 key) (pyGet token2 key) then
        token_field_loop token1 token2 j rest td
      else
        let td1 := if td.isEmpty
          then td ++ [SLine.tokenHeader (pyGet token1 "token") (pyGet token2 "token") j]
          else td
        token_field_loop token1 token2 j rest (td1 ++ diff_lines_for_key token1 token2 key)

/-- The full field comparison of two tokens at position `j`. -/
def token_discrepancies (token1 token2 : Json) (j : Nat) : List SLine :=
  token_field_loop token1 token2 j (sorted_key_union token1 token2 keys_to_ignore_token) []

/-- The loop over token positions `j` of one sentence pair: a missing-token
notice when one analysis list is shorter, the field comparison otherwise. -/
def token_loop (analysis1 analysis2 : List Json) : List SLine :=
  (List.range (max analysis1.length analysis2.length)).flatMap (fun j =>
    if j ≥ analysis1.length then
      [SLine.tokenOntbreekt (pyGet (analysis2.getD j Json.null) "token") j 1]
    else if j ≥ analysis2.length then
      [SLine.tokenOntbreekt (pyGet (analysis1.getD j Json.null) "token") j 2]
    else
      token_discrepancies (analysis1.getD j Json.null) (analysis2.getD j Json.null) j)

/-- The Greek source-text comparison of one sentence pair. -/
def sentence_text_diffs (sentence1 sentence2 : Json) (i : Nat) : List SLine :=
  if jeq (pyGet sentence1 "sentence_text") (pyGet sentence2 "sentence_text") then []
  else [SLine.verschilBrontekst i (pyGet sentence1 "sentence_text") (pyGet sentence2 "sentence_text")]

/-- The lines contributed by sentence index `i`: a one-line notice when the
sentence exists on only one side; otherwise the text and token comparison,
prefixed with the `ZIN i` header exactly when it found anything. -/
def sentence_block (sentences1 sentences2 : List Json) (i : Nat) : List SLine :=
  if i ≥ sentences1.length then
    [SLine.zinOntbreekt i 1]
  else if i ≥ sentences2.length then
    [SLine.zinOntbreekt i 2]
  else
    let sentence1 := sentences1.getD i Json.null
    let sentence2 := sentences2.getD i Json.null
    let sd := sentence_text_diffs sentence1 sentence2 i ++
      token_loop (pyGetList sentence1 "analysis") (pyGetList sentence2 "analysis")
    if sd.isEmpty then [] else SLine.zinHeader i :: sd

/-- The discrepancy list of `compare_json_files` over two decoded
documents. -/
def compare_json_files (data1 data2 : Json) : List SLine :=
  let sentences1 := pyGetList data1 "sentences"
  let sentences2 := pyGetList data2 "sentences"
  (List.range (max sentences1.length sentences2.length)).flatMap
    (sentence_block sentences1 sentences2)

/-- The written report: the fixed no-discrepancies sentence when the list
is empty, the header plus the lines otherwise. -/
inductive Report where
  | geenDiscrepanties : Report
  | resultaten (lines : List SLine) : Report

/-- The report written by the per-sentence script for two decoded
documents. -/
def finalReport (data1 data2 : Json) : Report :=
  let ds := compare_json_files data1 data2
  if ds.isEmpty then Report.geenDiscrepanties else Report.resultaten ds

/-- The whole run including the load stage: on a file-not-found or JSON
decode failure of either input the script prints an error and returns
before any comparison, so no report is produced. -/
def run (r1 r2 : LoadResult) : Option Report :=
  match r1, r2 with
  | LoadResult.ok d1, LoadResult.ok d2 => some (finalReport d1 d2)
  | _, _ => none

end PerSentence

namespace PerWord

/-- One structured report line of `compare_analysis_per_word.py`. -/
inductive WLine where
  | extraToken (pos : Nat) (inFile : Nat) (tokval : Json) : WLine
  | tokenHeader (tok1 tok2 : Json) (pos : Nat) : WLine
  | verschil (key : String) (val1 val2 : Json) : WLine
  | verschilDetail (key dkey : String) (dval1 dval2 : Json) : WLine

/-- The token-level ignore set of the per-word script. -/
def keys_to_ignore_token : List String := ["dictionary_entry_nl", "gloss"]

/-- Concatenation of every sentence's `analysis` list in document order. -/
def flatten_tokens (data : Json) : List Json :=
  (pyGetList data "sentences").flatMap (fun sentence => pyGetList sentence "analysis")

/-- The one-level recursion over `parsing_details` (same shape as in the
per-sentence script). -/
def detail_diffs (key : String) (val1 val2 : Json) : List WLine :=
  (sorted_detail_union val1 val2).flatMap (fun dkey =>
    let dval1 := pyGet val1 dkey
    let dval2 := pyGet val2 dkey
    if jeq dval1 dval2 then [] else [WLine.verschilDetail key dkey dval1 dval2])

/-- The lines appended for one differing token field. -/
def diff_lines_for_key (token1 token2 : Json) (key : String) : List WLine :=
  let val1 := pyGet token1 key
  let val2 := pyGet token2 key
  if key == "parsing_details" && isObj val1 && isObj val2 then
    detail_diffs key val1 val2
  else
    [WLine.verschil key val1 val2]

/-- The loop over the sorted token-field keys with the accumulated
discrepancy list. -/
def token_field_loop (token1 token2 : Json) (i : Nat) : List String → List WLine → List WLine
  | [], td => td
  | key :: rest, td =>
      if jeq (pyGet token1 key) (pyGet token2 key) then
        token_field_loop token1 token2 i rest td
      else
        let td1 := if td.isEmpty
          then td ++ [WLine.tokenHeader (pyGet token1 "token") (pyGet token2 "token") i]
          else td
        token_field_loop token1 token2 i rest (td1 ++ diff_lines_for_key token1 token2 key)

/-- The full field comparison of two tokens at overall position `i`. -/
def token_discrepancies (token1 token2 : Json) (i : Nat) : List WLine :=
  token_field_loop token1 token2 i (sorted_key_union token1 token2 keys_to_ignore_token) []

/-- The discrepancy list of `compare_analyses` over two decoded documents:
the positional comparison of the two flattened token sequences. -/
def compare_analyses (data1 data2 : Json) : List WLine :=
  let tokens1 := flatten_tokens data1
  let tokens2 := flatten_tokens data2
  (List.range (max tokens1.length tokens2.length)).flatMap (fun i =>
    if i ≥ tokens1.length then
      [WLine.extraToken i 2 (pyGet (tokens2.getD i Json.null) "token")]
    else if i ≥ tokens2.length then
      [WLine.extraToken i 1 (pyGet (tokens1.getD i Json.null) "token")]
    else
      token_discrepancies (tokens1.getD i Json.null) (tokens2.getD i Json.null) i)

/-- The written report of the per-word script. -/
inductive Report where
  | geenInhoudelijkeDiscrepanties : Report
  | resultaten (lines : List WLine) : Report

/-- The report written by the per-word script for two decoded documents. -/
def finalReport (data1 data2 : Json) : Report :=
  let ds := compare_analyses data1 data2
  if ds.isEmpty then Report.geenInhoudelijkeDiscrepanties else Report.resultaten ds

/-- The whole run including the load stage. -/
def run (r1 r2 : LoadResult) : Option Report :=
  match r1, r2 with
  | LoadResult.ok d1, LoadResult.ok d2 => some (finalReport d1 d2)
  | _, _ => none

end PerWord

/-- A JSON value whose top-level object (if it is one) has pairwise
distinct keys, as every value decoded by `json.load` does. -/
def keysNodup (v : Json) : Prop := (keysOf v).Nodup

namespace PerSentence

/-- The lines contributed by one key of the sorted key union: nothing when
the values are Python-equal, the lines of `diff_lines_for_key` otherwise.
The loop `token_field_loop` emits exactly these, prefixed once by the
token header. -/
def key_group (token1 token2 : Json) (key : String) : List SLine :=
  if jeq (pyGet token1 key) (pyGet token2 key) then []
  else diff_lines_for_key token1 token2 key

/-- Whether a report line names the token field `k` (as the whole-value
field of a difference line, or as the outer field of a drill-down line). -/
def slineMentionsKey (line : SLine) (k : String) : Bool :=
  match line with
  | SLine.verschil key _ _ => key == k
  | SLine.verschilDetail key _ _ _ => key == k
  | _ => false

/-- Whether a line is the notice that sentence `i` is missing from file
`f`. -/
def slineIsZinOntbreekt (i f : Nat) (line : SLine) : Bool :=
  match line with
  | SLine.zinOntbreekt n g => n == i && g == f
  | _ => false

/-- Two tokens at the same position differ in some non-ignored field. -/
def token_pair_differs (t1 t2 : Json) : Prop :=
  ∃ k, keys_to_ignore_token.contains k = false ∧ jeq (pyGet t1 k) (pyGet t2 k) = false

/-- A sentence pair produces some discrepancy: different Greek source
text, analysis lists of different lengths, or a token pair with a
differing non-ignored field. -/
def sentence_pair_differs (sentence1 sentence2 : Json) : Prop :=
  jeq (pyGet sentence1 "sentence_text") (pyGet sentence2 "sentence_text") = false ∨
  (pyGetList sentence1 "analysis").length ≠ (pyGetList sentence2 "analysis").length ∨
  ∃ j, j < (pyGetList sentence1 "analysis").length ∧
    j < (pyGetList sentence2 "analysis").length ∧
    token_pair_differs ((pyGetList sentence1 "analysis").getD j Json.null)
      ((pyGetList sentence2 "analysis").getD j Json.null)

end PerSentence

namespace PerWord

/-- The lines contributed by one key of the sorted key union in the
per-word script. -/
def key_group (token1 token2 : Json) (key : String) : List WLine :=
  if jeq (pyGet token1 key) (pyGet token2 key) then []
  else diff_lines_for_key token1 token2 key

/-- Whether a per-word report line names the token field `k`. -/
def wlineMentionsKey (line : WLine) (k : String) : Bool :=
  match line with
  | WLine.verschil key _ _ => key == k
  | WLine.verschilDetail key _ _ _ => key == k
  | _ => false

end PerWord

namespace PerSentence

/-- Whether a line is a whole-value difference line for the field `k`. -/
def slineIsVerschilKey (k : String) (line : SLine) : Bool :=
  match line with
  | SLine.verschil key _ _ => key == k
  | _ => false

/-- Whether a line is a drill-down (sub-field) difference line. -/
def slineIsDetail (line : SLine) : Bool :=
  match line with
  | SLine.verschilDetail _ _ _ _ => true
  | _ => false

end PerSentence

namespace PerWord

/-- Whether a per-word line is a whole-value difference line for `k`. -/
def wlineIsVerschilKey (k : String) (line : WLine) : Bool :=
  match line with
  | WLine.verschil key _ _ => key == k
  | _ => false

/-- Whether a per-word line is a drill-down difference line. -/
def wlineIsDetail (line : WLine) : Bool :=
  match line with
  | WLine.verschilDetail _ _ _ _ => true
  | _ => false

end PerWord

/-- Example token carrying the spec's concrete scenario: nominative case. -/
def exTokenNom : Json :=
  Json.obj [("token", Json.str "logos"), ("lemma", Json.str "logos"),
    ("part_of_speech", Json.str "noun"),
    ("parsing_details", Json.obj [("case", Json.str "nominative")])]

/-- Example token identical to `exTokenNom` except the case sub-field. -/
def exTokenAcc : Json :=
  Json.obj [("token", Json.str "logos"), ("lemma", Json.str "logos"),
    ("part_of_speech", Json.str "noun"),
    ("parsing_details", Json.obj [("case", Json.str "accusative")])]

/-- One-sentence document around `exTokenNom`. -/
def exDocNom : Json :=
  Json.obj [("sentences", Json.arr [Json.obj [("sentence_text", Json.str "logos"),
    ("analysis", Json.arr [exTokenNom])]])]

/-- One-sentence document around `exTokenAcc`. -/
def exDocAcc : Json :=
  Json.obj [("sentences", Json.arr [Json.obj [("sentence_text", Json.str "logos"),
    ("analysis", Json.arr [exTokenAcc])]])]

/-- Example token with gloss `woord`. -/
def glossTok1 : Json :=
  Json.obj [("token", Json.str "logos"), ("lemma", Json.str "logos"),
    ("gloss", Json.str "woord")]

/-- Example token identical to `glossTok1` except its gloss. -/
def glossTok2 : Json :=
  Json.obj [("token", Json.str "logos"), ("lemma", Json.str "logos"),
    ("gloss", Json.str "rede")]

/-- One-sentence document around `glossTok1`. -/
def glossDoc1 : Json :=
  Json.obj [("sentences", Json.arr [Json.obj [("sentence_text", Json.str "logos"),
    ("analysis", Json.arr [glossTok1])]])]

/-- One-sentence document around `glossTok2`. -/
def glossDoc2 : Json :=
  Json.obj [("sentences", Json.arr [Json.obj [("sentence_text", Json.str "logos"),
    ("analysis", Json.arr [glossTok2])]])]

/-- Sentence carrying a Dutch translation. -/
def transSent1 : Json :=
  Json.obj [("sentence_text", Json.str "logos"),
    ("analysis", Json.arr [exTokenNom]),
    ("translation_nl", Json.str "het woord")]

/-- Like `transSent1` but with different translation fields. -/
def transSent2 : Json :=
  Json.obj [("sentence_text", Json.str "logos"),
    ("analysis", Json.arr [exTokenNom]),
    ("translation_nl", Json.str "de rede"),
    ("translation_en", Json.str "the word")]

/-- Document whose single sentence carries a Dutch translation. -/
def transDoc1 : Json := Json.obj [("sentences", Json.arr [transSent1])]

/-- Like `transDoc1` but with different translation fields. -/
def transDoc2 : Json := Json.obj [("sentences", Json.arr [transSent2])]

/-- Both example tokens in a single sentence. -/
def segDoc1 : Json :=
  Json.obj [("sentences", Json.arr [Json.obj [("sentence_text", Json.str "a b"),
    ("analysis", Json.arr [exTokenNom, exTokenAcc])]])]

/-- The same two tokens split over two sentences. -/
def segDoc2 : Json :=
  Json.obj [("sentences", Json.arr [
    Json.obj [("sentence_text", Json.str "a"), ("analysis", Json.arr [exTokenNom])],
    Json.obj [("sentence_text", Json.str "b"), ("analysis", Json.arr [exTokenAcc])]])]

/-- A one-sentence document. -/
def missDoc1 : Json :=
  Json.obj [("sentences", Json.arr [
    Json.obj [("sentence_text", Json.str "a"), ("analysis", Json.arr [exTokenNom])]])]

/-- A two-sentence document whose first sentence equals `missDoc1`'s. -/
def missDoc2 : Json :=
  Json.obj [("sentences", Json.arr [
    Json.obj [("sentence_text", Json.str "a"), ("analysis", Json.arr [exTokenNom])],
    Json.obj [("sentence_text", Json.str "b"), ("analysis", Json.arr [exTokenAcc])]])]

/-- Token without the field `extra`. -/
def nullTok1 : Json :=
  Json.obj [("token", Json.str "x"), ("lemma", Json.str "a")]

/-- Token carrying `extra` with an explicit null, and a differing lemma. -/
def nullTok2 : Json :=
  Json.obj [("token", Json.str "x"), ("extra", Json.null), ("lemma", Json.str "b")]

/-- Token whose `parsing_details` is a dictionary. -/
def pdTok1 : Json :=
  Json.obj [("token", Json.str "x"),
    ("parsing_details", Json.obj [("case", Json.str "nominative")])]

/-- Token whose `parsing_details` is null (not a dictionary). -/
def pdTok2 : Json :=
  Json.obj [("token", Json.str "x"), ("parsing_details", Json.null)]

/-- Inserting into a sorted list is a permutation of consing. -/
theorem insertSorted_perm (x : String) (l : List String) :
    (insertSorted x l).Perm (x :: l) := by
  induction l with
  | nil => simp [insertSorted]
  | cons y ys ih =>
      unfold insertSorted
      by_cases h : strLe x y = true
      · simp [h]
      · simp only [h, if_false]
        exact (ih.cons y).trans (List.Perm.swap x y ys)

/-- The sort is a permutation of its input. -/
theorem sortStrings_perm (l : List String) : (sortStrings l).Perm l := by
  induction l with
  | nil => exact List.Perm.refl _
  | cons x xs ih => exact (insertSorted_perm x (sortStrings xs)).trans (ih.cons x)

/-- Membership is preserved by the sort. -/
theorem mem_sortStrings {x : String} {l : List String} : x ∈ sortStrings l ↔ x ∈ l :=
  (sortStrings_perm l).mem_iff

/-- Duplicate-freeness is preserved by the sort. -/
theorem nodup_sortStrings {l : List String} (h : l.Nodup) : (sortStrings l).Nodup :=
  (sortStrings_perm l).nodup_iff.mpr h

/-- Occurrence counts are preserved by the sort. -/
theorem count_sortStrings (l : List String) (x : String) :
    (sortStrings l).count x = l.count x :=
  (sortStrings_perm l).count_eq x

/-- When exactly one element of a list has a non-empty image, the flat map
is that image. -/
theorem flatMap_eq_single {α β : Type} [DecidableEq α] {l : List α} {f : α → List β} {k : α}
    (hcount : l.count k = 1) (hother : ∀ x ∈ l, x ≠ k → f x = []) :
    l.flatMap f = f k := by
  induction l with
  | nil => simp at hcount
  | cons a as ih =>
      rw [List.count_cons] at hcount
      by_cases hak : a = k
      · subst hak
        simp only [beq_self_eq_true _, if_true, Nat.add_left_eq_self] at hcount
        have hnil : as.flatMap f = [] := by
          rw [List.flatMap_eq_nil_iff]
          intro x hx
          exact hother x (List.mem_cons_of_mem a hx)
            (fun hxa => (List.count_eq_zero.mp hcount) (hxa ▸ hx))
        rw [List.flatMap_cons, hnil, List.append_nil]
      · have hbeq : (a == k) = false := beq_eq_false_iff_ne.mpr hak
        rw [hbeq] at hcount
        simp at hcount
        rw [List.flatMap_cons, hother a (List.mem_cons_self a as) hak, List.nil_append]
        exact ih hcount (fun x hx => hother x (List.mem_cons_of_mem a hx))

/-- When exactly one element of a list contributes matches, the match count
of the flat map is the match count of that contribution. -/
theorem countP_flatMap_single {α β : Type} [DecidableEq α] {l : List α} {f : α → List β}
    {p : β → Bool} {k : α}
    (hcount : l.count k = 1) (hother : ∀ x ∈ l, x ≠ k → List.countP p (f x) = 0) :
    List.countP p (l.flatMap f) = List.countP p (f k) := by
  induction l with
  | nil => simp at hcount
  | cons a as ih =>
      rw [List.count_cons] at hcount
      by_cases hak : a = k
      · subst hak
        simp only [beq_self_eq_true _, if_true, Nat.add_left_eq_self] at hcount
        have hz : List.countP p (as.flatMap f) = 0 := by
          rw [List.countP_eq_zero]
          intro b hb
          obtain ⟨x, hx, hbx⟩ := List.mem_flatMap.mp hb
          have hxk : x ≠ a := fun hxa => (List.count_eq_zero.mp hcount) (hxa ▸ hx)
          have := hother x (List.mem_cons_of_mem a hx) hxk
          rw [List.countP_eq_zero] at this
          exact this b hbx
        rw [List.flatMap_cons, List.countP_append, hz, Nat.add_zero]
      · have hbeq : (a == k) = false := beq_eq_false_iff_ne.mpr hak
        rw [hbeq] at hcount
        simp at hcount
        rw [List.flatMap_cons, List.countP_append,
          hother a (List.mem_cons_self a as) hak, Nat.zero_add]
        exact ih hcount (fun x hx => hother x (List.mem_cons_of_mem a hx))

/-- A key looks up to nothing exactly when it is not among the keys. -/
theorem jlookup_eq_none_iff {k : String} {l : List (String × Json)} :
    jlookup k l = none ↔ k ∉ l.map Prod.fst := by
  induction l with
  | nil => simp [jlookup]
  | cons p rest ih =>
      obtain ⟨k2, v⟩ := p
      by_cases h : k2 = k
      · subst h
        simp [jlookup]
      · have hbeq : (k2 == k) = false := beq_eq_false_iff_ne.mpr h
        simp [jlookup, hbeq, ih, Ne.symm h]

/-- A successful lookup returns a stored entry. -/
theorem jlookup_some_mem {k : String} {l : List (String × Json)} {v : Json}
    (h : jlookup k l = some v) : (k, v) ∈ l := by
  induction l with
  | nil => simp [jlookup] at h
  | cons p rest ih =>
      obtain ⟨k2, w⟩ := p
      by_cases hk : k2 = k
      · subst hk
        simp only [jlookup, beq_self_eq_true _, if_true, Option.some.injEq] at h
        subst h
        exact List.mem_cons_self _ _
      · have hbeq : (k2 == k) = false := beq_eq_false_iff_ne.mpr hk
        simp only [jlookup, hbeq, Bool.false_eq_true, if_false] at h
        exact List.mem_cons_of_mem _ (ih h)

/-- A successful lookup means the key is among the keys. -/
theorem jlookup_mem_keys {k : String} {l : List (String × Json)} {v : Json}
    (h : jlookup k l = some v) : k ∈ l.map Prod.fst := by
  by_contra hc
  rw [← jlookup_eq_none_iff] at hc
  rw [h] at hc
  exact Option.noConfusion hc

/-- Getting an absent key gives null (Python returns `None`). -/
theorem pyGet_eq_null_of_not_mem {v : Json} {k : String} (h : k ∉ keysOf v) :
    pyGet v k = Json.null := by
  cases v with
  | obj fields =>
      have hn : jlookup k fields = none := jlookup_eq_none_iff.mpr h
      simp [pyGet, hn]
  | null => rfl
  | bool b => rfl
  | str s => rfl
  | num n => rfl
  | arr xs => rfl

/-- A field whose values compare unequal is present on at least one side:
on two absent sides both gets give null, and null equals null. -/
theorem mem_keys_of_jeq_pyGet_false {t1 t2 : Json} {k : String}
    (h : jeq (pyGet t1 k) (pyGet t2 k) = false) :
    k ∈ keysOf t1 ∨ k ∈ keysOf t2 := by
  by_contra hc
  push_neg at hc
  rw [pyGet_eq_null_of_not_mem hc.1, pyGet_eq_null_of_not_mem hc.2] at h
  simp [jeq] at h

/-- Membership in the sorted key union. -/
theorem mem_sorted_key_union {t1 t2 : Json} {ignore : List String} {k : String} :
    k ∈ sorted_key_union t1 t2 ignore ↔
      (k ∈ keysOf t1 ∨ k ∈ keysOf t2) ∧ ignore.contains k = false := by
  unfold sorted_key_union
  rw [mem_sortStrings, List.mem_filter, List.mem_dedup, List.mem_append]
  simp [Bool.not_eq_true']

/-- The sorted key union has no duplicates. -/
theorem nodup_sorted_key_union (t1 t2 : Json) (ignore : List String) :
    (sorted_key_union t1 t2 ignore).Nodup :=
  nodup_sortStrings (List.Nodup.filter _ (List.nodup_dedup _))

/-- Membership in the sorted sub-key union of the drill-down. -/
theorem mem_sorted_detail_union {v1 v2 : Json} {d : String} :
    d ∈ sorted_detail_union v1 v2 ↔ d ∈ keysOf v1 ∨ d ∈ keysOf v2 := by
  unfold sorted_detail_union
  rw [mem_sortStrings, List.mem_dedup, List.mem_append]

/-- The sorted sub-key union has no duplicates. -/
theorem nodup_sorted_detail_union (v1 v2 : Json) :
    (sorted_detail_union v1 v2).Nodup :=
  nodup_sortStrings (List.nodup_dedup _)

/-- From a successful one-sided dictionary inclusion, every stored entry of
the left dictionary is found in the right one with an equal value. -/
theorem jeqObjIn_lookup {o1 o2 : List (String × Json)} (h : jeqObjIn o1 o2 = true) :
    ∀ {k : String} {v : Json}, (k, v) ∈ o1 →
      ∃ w, jlookup k o2 = some w ∧ jeq v w = true := by
  induction o1 with
  | nil =>
      intro k v hm
      simp at hm
  | cons p rest ih =>
      obtain ⟨k1, v1⟩ := p
      rw [jeqObjIn, Bool.and_eq_true] at h
      obtain ⟨h1, h2⟩ := h
      intro k v hm
      rcases List.mem_cons.mp hm with heq | hmem
      · obtain ⟨w, hw, hj⟩ : ∃ w, jlookup k1 o2 = some w ∧ jeq v1 w = true := by
          cases hl : jlookup k1 o2 with
          | none => rw [hl] at h1; simp at h1
          | some w => rw [hl] at h1; exact ⟨w, rfl, h1⟩
        injection heq with hk hv
        refine ⟨w, ?_, ?_⟩
        · rw [hk]; exact hw
        · rw [hv]; exact hj
      · exact ih h2 hmem

/-- One-sided dictionary inclusion gives inclusion of key lists. -/
theorem keys_subset_of_jeqObjIn {o1 o2 : List (String × Json)}
    (h : jeqObjIn o1 o2 = true) : o1.map Prod.fst ⊆ o2.map Prod.fst := by
  intro k hk
  obtain ⟨⟨k2, v⟩, hmem, hfst⟩ := List.mem_map.mp hk
  dsimp at hfst
  subst hfst
  obtain ⟨w, hw, _⟩ := jeqObjIn_lookup h hmem
  exact jlookup_mem_keys hw

/-- Python-equal values give Python-equal `get` results at every key (for
values whose top-level dictionaries, as all decoded ones, have distinct
keys). -/
theorem pyGet_jeq_of_jeq {v1 v2 : Json} (h1 : keysNodup v1) (h2 : keysNodup v2)
    (h : jeq v1 v2 = true) (k : String) : jeq (pyGet v1 k) (pyGet v2 k) = true := by
  cases v1 with
  | obj o1 =>
      cases v2 with
      | obj o2 =>
          rw [jeq, Bool.and_eq_true, beq_iff_eq] at h
          obtain ⟨hlen, hin⟩ := h
          cases hl1 : jlookup k o1 with
          | some v =>
              obtain ⟨w, hw, hjeq⟩ := jeqObjIn_lookup hin (jlookup_some_mem hl1)
              simp [pyGet, hl1, hw, hjeq]
          | none =>
              have hk1 : k ∉ o1.map Prod.fst := jlookup_eq_none_iff.mp hl1
              have hnd1 : (o1.map Prod.fst).Nodup := h1
              have hl2 : jlookup k o2 = none := by
                rw [jlookup_eq_none_iff]
                intro hk2
                have hsub := keys_subset_of_jeqObjIn hin
                have hperm : (o1.map Prod.fst).Perm (o2.map Prod.fst) :=
                  (hnd1.subperm hsub).perm_of_length_le
                    (by simp only [List.length_map]; omega)
                exact hk1 (hperm.mem_iff.mpr hk2)
              simp [pyGet, hl1, hl2, jeq]
      | null => simp [jeq] at h
      | bool b => simp [jeq] at h
      | str s => simp [jeq] at h
      | num n => simp [jeq] at h
      | arr xs => simp [jeq] at h
  | null =>
      cases v2 with
      | obj o2 => simp [jeq] at h
      | null => rfl
      | bool b => rfl
      | str s => rfl
      | num n => rfl
      | arr xs => rfl
  | bool b1 =>
      cases v2 with
      | obj o2 => simp [jeq] at h
      | null => rfl
      | bool b => rfl
      | str s => rfl
      | num n => rfl
      | arr xs => rfl
  | str s1 =>
      cases v2 with
      | obj o2 => simp [jeq] at h
      | null => rfl
      | bool b => rfl
      | str s => rfl
      | num n => rfl
      | arr xs => rfl
  | num n1 =>
      cases v2 with
      | obj o2 => simp [jeq] at h
      | null => rfl
      | bool b => rfl
      | str s => rfl
      | num n => rfl
      | arr xs => rfl
  | arr xs1 =>
      cases v2 with
      | obj o2 => simp [jeq] at h
      | null => rfl
      | bool b => rfl
      | str s => rfl
      | num n => rfl
      | arr xs => rfl

namespace PerSentence

/-- Once some discrepancy has been accumulated, the loop simply appends
each remaining key's group of lines. -/
theorem token_field_loop_nonempty (token1 token2 : Json) (j : Nat) :
    ∀ (keys : List String) (td : List SLine), td ≠ [] →
      token_field_loop token1 token2 j keys td =
        td ++ keys.flatMap (key_group token1 token2) := by
  intro keys
  induction keys with
  | nil =>
      intro td _
      simp [token_field_loop]
  | cons key rest ih =>
      intro td htd
      have hemp : td.isEmpty = false :=
        Bool.eq_false_iff.mpr (fun hb => htd (List.isEmpty_iff.mp hb))
      rw [token_field_loop]
      by_cases h : jeq (pyGet token1 key) (pyGet token2 key) = true
      · rw [if_pos h, ih td htd, List.flatMap_cons]
        simp [key_group, h]
      · rw [if_neg h, hemp]
        have hne : td ++ diff_lines_for_key token1 token2 key ≠ [] :=
          fun hx => htd (List.append_eq_nil.mp hx).1
        rw [if_neg (by simp)]
        rw [ih _ hne, List.flatMap_cons]
        simp [key_group, Bool.eq_false_iff.mpr h, List.append_assoc]

/-- Starting from the empty accumulator, the loop emits the token header
followed by every key's group exactly when some key's values differ, and
nothing otherwise. -/
theorem token_field_loop_empty (token1 token2 : Json) (j : Nat) :
    ∀ keys : List String,
      token_field_loop token1 token2 j keys [] =
        if keys.any (fun k => !(jeq (pyGet token1 k) (pyGet token2 k))) then
          SLine.tokenHeader (pyGet token1 "token") (pyGet token2 "token") j ::
            keys.flatMap (key_group token1 token2)
        else [] := by
  intro keys
  induction keys with
  | nil => simp [token_field_loop]
  | cons key rest ih =>
      rw [token_field_loop]
      by_cases h : jeq (pyGet token1 key) (pyGet token2 key) = true
      · rw [if_pos h, ih, List.any_cons, List.flatMap_cons]
        simp [key_group, h]
      · rw [if_neg h]
        have hf : jeq (pyGet token1 key) (pyGet token2 key) = false :=
          Bool.eq_false_iff.mpr h
        have hne : ([SLine.tokenHeader (pyGet token1 "token") (pyGet token2 "token") j] ++
            diff_lines_for_key token1 token2 key) ≠ [] := by simp
        simp only [List.isEmpty_nil, if_true, List.nil_append]
        rw [token_field_loop_nonempty token1 token2 j rest _ hne]
        rw [List.any_cons, List.flatMap_cons]
        simp [key_group, hf, List.append_assoc]

/-- The token comparison in closed form: the header and the per-key groups
when some non-ignored field differs, nothing otherwise. -/
theorem token_discrepancies_spec (token1 token2 : Json) (j : Nat) :
    token_discrepancies token1 token2 j =
      if (sorted_key_union token1 token2 keys_to_ignore_token).any
          (fun k => !(jeq (pyGet token1 k) (pyGet token2 k))) then
        SLine.tokenHeader (pyGet token1 "token") (pyGet token2 "token") j ::
          (sorted_key_union token1 token2 keys_to_ignore_token).flatMap
            (key_group token1 token2)
      else [] :=
  token_field_loop_empty token1 token2 j _

end PerSentence

namespace PerWord

/-- Once some discrepancy has been accumulated, the per-word loop appends
each remaining key's group of lines. -/
theorem token_field_loop_nonempty_w (token1 token2 : Json) (i : Nat) :
    ∀ (keys : List String) (td : List WLine), td ≠ [] →
      token_field_loop token1 token2 i keys td =
        td ++ keys.flatMap (key_group token1 token2) := by
  intro keys
  induction keys with
  | nil =>
      intro td _
      simp [token_field_loop]
  | cons key rest ih =>
      intro td htd
      have hemp : td.isEmpty = false :=
        Bool.eq_false_iff.mpr (fun hb => htd (List.isEmpty_iff.mp hb))
      rw [token_field_loop]
      by_cases h : jeq (pyGet token1 key) (pyGet token2 key) = true
      · rw [if_pos h, ih td htd, List.flatMap_cons]
        simp [key_group, h]
      · rw [if_neg h, hemp]
        have hne : td ++ diff_lines_for_key token1 token2 key ≠ [] :=
          fun hx => htd (List.append_eq_nil.mp hx).1
        rw [if_neg (by simp)]
        rw [ih _ hne, List.flatMap_cons]
        simp [key_group, Bool.eq_false_iff.mpr h, List.append_assoc]

/-- Starting from the empty accumulator, the per-word loop emits the token
header followed by every key's group exactly when some key's values
differ, and nothing otherwise. -/
theorem token_field_loop_empty_w (token1 token2 : Json) (i : Nat) :
    ∀ keys : List String,
      token_field_loop token1 token2 i keys [] =
        if keys.any (fun k => !(jeq (pyGet token1 k) (pyGet token2 k))) then
          WLine.tokenHeader (pyGet token1 "token") (pyGet token2 "token") i ::
            keys.flatMap (key_group token1 token2)
        else [] := by
  intro keys
  induction keys with
  | nil => simp [token_field_loop]
  | cons key rest ih =>
      rw [token_field_loop]
      by_cases h : jeq (pyGet token1 key) (pyGet token2 key) = true
      · rw [if_pos h, ih, List.any_cons, List.flatMap_cons]
        simp [key_group, h]
      · rw [if_neg h]
        have hf : jeq (pyGet token1 key) (pyGet token2 key) = false :=
          Bool.eq_false_iff.mpr h
        have hne : ([WLine.tokenHeader (pyGet token1 "token") (pyGet token2 "token") i] ++
            diff_lines_for_key token1 token2 key) ≠ [] := by simp
        simp only [List.isEmpty_nil, if_true, List.nil_append]
        rw [token_field_loop_nonempty_w token1 token2 i rest _ hne]
        rw [List.any_cons, List.flatMap_cons]
        simp [key_group, hf, List.append_assoc]

/-- The per-word token comparison in closed form. -/
theorem token_discrepancies_spec_w (token1 token2 : Json) (i : Nat) :
    token_discrepancies token1 token2 i =
      if (sorted_key_union token1 token2 keys_to_ignore_token).any
          (fun k => !(jeq (pyGet token1 k) (pyGet token2 k))) then
        WLine.tokenHeader (pyGet token1 "token") (pyGet token2 "token") i ::
          (sorted_key_union token1 token2 keys_to_ignore_token).flatMap
            (key_group token1 token2)
      else [] :=
  token_field_loop_empty_w token1 token2 i _

end PerWord

namespace PerSentence

/-- When every non-ignored field compares equal, the token comparison
reports nothing. -/
theorem token_discrepancies_eq_nil {token1 token2 : Json} (j : Nat)
    (h : ∀ k, keys_to_ignore_token.contains k = false →
      jeq (pyGet token1 k) (pyGet token2 k) = true) :
    token_discrepancies token1 token2 j = [] := by
  rw [token_discrepancies_spec]
  have hany : (sorted_key_union token1 token2 keys_to_ignore_token).any
      (fun k => !(jeq (pyGet token1 k) (pyGet token2 k))) = false := by
    rw [Bool.eq_false_iff]
    intro hx
    obtain ⟨k, hk, hdiff⟩ := List.any_eq_true.mp hx
    rw [h k (mem_sorted_key_union.mp hk).2] at hdiff
    simp at hdiff
  rw [hany]
  simp

/-- The guard of the token comparison holds exactly when some non-ignored
field differs. -/
theorem any_diff_iff (token1 token2 : Json) :
    ((sorted_key_union token1 token2 keys_to_ignore_token).any
      (fun k => !(jeq (pyGet token1 k) (pyGet token2 k))) = true) ↔
    token_pair_differs token1 token2 := by
  rw [List.any_eq_true]
  constructor
  · rintro ⟨k, hk, hdiff⟩
    exact ⟨k, (mem_sorted_key_union.mp hk).2, by simpa using hdiff⟩
  · rintro ⟨k, hig, hf⟩
    exact ⟨k, mem_sorted_key_union.mpr ⟨mem_keys_of_jeq_pyGet_false hf, hig⟩,
      by simp [hf]⟩

/-- The token comparison reports nothing exactly when no non-ignored field
differs. -/
theorem token_discrepancies_eq_nil_iff (token1 token2 : Json) (j : Nat) :
    token_discrepancies token1 token2 j = [] ↔ ¬ token_pair_differs token1 token2 := by
  constructor
  · intro h hdiff
    have hb := (any_diff_iff token1 token2).mpr hdiff
    rw [token_discrepancies_spec, if_pos hb] at h
    exact List.cons_ne_nil _ _ h
  · intro hnd
    refine token_discrepancies_eq_nil j ?_
    intro k hk
    by_contra hne
    exact hnd ⟨k, hk, Bool.eq_false_iff.mpr hne⟩

/-- Every line of one key's group concerns exactly that key: it is the
whole-value difference line for that key, or a drill-down line whose outer
field is that key, emitted for a differing sub-key of the union; in either
case the key's values differ. -/
theorem mem_key_group {token1 token2 : Json} {k : String} {line : SLine}
    (h : line ∈ key_group token1 token2 k) :
    jeq (pyGet token1 k) (pyGet token2 k) = false ∧
      (line = SLine.verschil k (pyGet token1 k) (pyGet token2 k) ∨
       (k == "parsing_details" && isObj (pyGet token1 k) && isObj (pyGet token2 k)) = true ∧
       ∃ d, d ∈ sorted_detail_union (pyGet token1 k) (pyGet token2 k) ∧
         jeq (pyGet (pyGet token1 k) d) (pyGet (pyGet token2 k) d) = false ∧
         line = SLine.verschilDetail k d (pyGet (pyGet token1 k) d)
           (pyGet (pyGet token2 k) d)) := by
  unfold key_group at h
  by_cases hjeq : jeq (pyGet token1 k) (pyGet token2 k) = true
  · rw [if_pos hjeq] at h
    simp at h
  · refine ⟨Bool.eq_false_iff.mpr hjeq, ?_⟩
    rw [if_neg hjeq] at h
    unfold diff_lines_for_key at h
    by_cases hc : (k == "parsing_details" && isObj (pyGet token1 k) &&
        isObj (pyGet token2 k)) = true
    · rw [if_pos hc] at h
      unfold detail_diffs at h
      obtain ⟨d, hd, hline⟩ := List.mem_flatMap.mp h
      by_cases hsub : jeq (pyGet (pyGet token1 k) d) (pyGet (pyGet token2 k) d) = true
      · rw [if_pos hsub] at hline
        simp at hline
      · rw [if_neg hsub] at hline
        simp only [List.mem_singleton] at hline
        exact Or.inr ⟨hc, d, hd, Bool.eq_false_iff.mpr hsub, hline⟩
    · rw [if_neg hc] at h
      simp only [List.mem_singleton] at h
      exact Or.inl h

/-- Every line of the token comparison is the token header or belongs to
the group of some key of the sorted union. -/
theorem mem_token_discrepancies {token1 token2 : Json} {j : Nat} {line : SLine}
    (h : line ∈ token_discrepancies token1 token2 j) :
    line = SLine.tokenHeader (pyGet token1 "token") (pyGet token2 "token") j ∨
      ∃ k, k ∈ sorted_key_union token1 token2 keys_to_ignore_token ∧
        line ∈ key_group token1 token2 k := by
  rw [token_discrepancies_spec] at h
  by_cases hb : (sorted_key_union token1 token2 keys_to_ignore_token).any
      (fun k => !(jeq (pyGet token1 k) (pyGet token2 k))) = true
  · rw [if_pos hb] at h
    rcases List.mem_cons.mp h with heq | hmem
    · exact Or.inl heq
    · obtain ⟨k, hk, hline⟩ := List.mem_flatMap.mp hmem
      exact Or.inr ⟨k, hk, hline⟩
  · rw [if_neg hb] at h
    simp at h

/-- The token loop reports nothing exactly when the two analysis lists
have equal length and no position has a differing non-ignored field. -/
theorem token_loop_eq_nil_iff (analysis1 analysis2 : List Json) :
    token_loop analysis1 analysis2 = [] ↔
      (analysis1.length = analysis2.length ∧
       ∀ j, j < analysis1.length →
         ¬ token_pair_differs (analysis1.getD j Json.null) (analysis2.getD j Json.null)) := by
  unfold token_loop
  rw [List.flatMap_eq_nil_iff]
  constructor
  · intro h
    have hlen : analysis1.length = analysis2.length := by
      by_contra hne
      rcases Nat.lt_or_ge analysis1.length analysis2.length with hlt | hge
      · have hx := h analysis1.length (List.mem_range.mpr (by omega))
        rw [if_pos (Nat.le_refl _)] at hx
        exact List.cons_ne_nil _ _ hx
      · have hlt2 : analysis2.length < analysis1.length := by omega
        have hx := h analysis2.length (List.mem_range.mpr (by omega))
        rw [if_neg (by omega), if_pos (Nat.le_refl _)] at hx
        exact List.cons_ne_nil _ _ hx
    refine ⟨hlen, ?_⟩
    intro j hj hdiff
    have hx := h j (List.mem_range.mpr (by omega))
    rw [if_neg (by omega), if_neg (by omega)] at hx
    exact (token_discrepancies_eq_nil_iff _ _ _).mp hx hdiff
  · rintro ⟨hlen, hall⟩ j hj
    rw [List.mem_range] at hj
    have hj1 : j < analysis1.length := by omega
    rw [if_neg (by omega), if_neg (by omega)]
    exact (token_discrepancies_eq_nil_iff _ _ _).mpr (hall j hj1)

/-- Every line of the token loop is a missing-token notice, a token
header, a whole-value difference line or a drill-down line. -/
theorem mem_token_loop {analysis1 analysis2 : List Json} {line : SLine}
    (h : line ∈ token_loop analysis1 analysis2) :
    (∃ t j f, line = SLine.tokenOntbreekt t j f) ∨
    (∃ a b j, line = SLine.tokenHeader a b j) ∨
    (∃ k v1 v2, line = SLine.verschil k v1 v2) ∨
    (∃ k d a b, line = SLine.verschilDetail k d a b) := by
  unfold token_loop at h
  obtain ⟨j, _, hline⟩ := List.mem_flatMap.mp h
  by_cases h1 : j ≥ analysis1.length
  · rw [if_pos h1] at hline
    simp only [List.mem_singleton] at hline
    exact Or.inl ⟨_, _, _, hline⟩
  · rw [if_neg h1] at hline
    by_cases h2 : j ≥ analysis2.length
    · rw [if_pos h2] at hline
      simp only [List.mem_singleton] at hline
      exact Or.inl ⟨_, _, _, hline⟩
    · rw [if_neg h2] at hline
      rcases mem_token_discrepancies hline with hh | ⟨k, _, hg⟩
      · exact Or.inr (Or.inl ⟨_, _, _, hh⟩)
      · rcases (mem_key_group hg).2 with hv | ⟨_, d, _, _, hd⟩
        · exact Or.inr (Or.inr (Or.inl ⟨_, _, _, hv⟩))
        · exact Or.inr (Or.inr (Or.inr ⟨_, _, _, _, hd⟩))

/-- Every line of the sentence-text comparison is a source-text difference
line for that sentence index. -/
theorem mem_sentence_text_diffs {sentence1 sentence2 : Json} {i : Nat} {line : SLine}
    (h : line ∈ sentence_text_diffs sentence1 sentence2 i) :
    line = SLine.verschilBrontekst i (pyGet sentence1 "sentence_text")
      (pyGet sentence2 "sentence_text") := by
  unfold sentence_text_diffs at h
  by_cases hj : jeq (pyGet sentence1 "sentence_text") (pyGet sentence2 "sentence_text") = true
  · rw [if_pos hj] at h
    simp at h
  · rw [if_neg hj] at h
    simpa using h

/-- The source-text comparison reports nothing exactly when the texts are
Python-equal. -/
theorem sentence_text_diffs_eq_nil_iff (sentence1 sentence2 : Json) (i : Nat) :
    sentence_text_diffs sentence1 sentence2 i = [] ↔
      jeq (pyGet sentence1 "sentence_text") (pyGet sentence2 "sentence_text") = true := by
  unfold sentence_text_diffs
  by_cases h : jeq (pyGet sentence1 "sentence_text") (pyGet sentence2 "sentence_text") = true
  · rw [if_pos h]
    simp [h]
  · rw [if_neg h]
    simp [h]

/-- A sentence index beyond the first document yields exactly the one-line
notice that the sentence is missing from file 1. -/
theorem sentence_block_missing1 {sentences1 sentences2 : List Json} {i : Nat}
    (h : sentences1.length ≤ i) :
    sentence_block sentences1 sentences2 i = [SLine.zinOntbreekt i 1] := by
  unfold sentence_block
  rw [if_pos h]

/-- A sentence index present in the first document but beyond the second
yields exactly the one-line notice that the sentence is missing from
file 2. -/
theorem sentence_block_missing2 {sentences1 sentences2 : List Json} {i : Nat}
    (h1 : i < sentences1.length) (h2 : sentences2.length ≤ i) :
    sentence_block sentences1 sentences2 i = [SLine.zinOntbreekt i 2] := by
  unfold sentence_block
  rw [if_neg (by omega), if_pos h2]

/-- The body of a present-present sentence comparison reports nothing
exactly when the pair exhibits no difference. -/
theorem sd_eq_nil_iff (sentence1 sentence2 : Json) (i : Nat) :
    (sentence_text_diffs sentence1 sentence2 i ++
      token_loop (pyGetList sentence1 "analysis") (pyGetList sentence2 "analysis")) = [] ↔
      ¬ sentence_pair_differs sentence1 sentence2 := by
  rw [List.append_eq_nil, sentence_text_diffs_eq_nil_iff, token_loop_eq_nil_iff]
  unfold sentence_pair_differs
  constructor
  · rintro ⟨htext, hlen, hall⟩ hdiff
    rcases hdiff with hd | hd | ⟨j, hj1, _, hd⟩
    · rw [htext] at hd
      exact Bool.true_eq_false ▸ (absurd hd (by simp))
    · exact hd hlen
    · exact hall j hj1 hd
  · intro hnd
    refine ⟨?_, ?_, ?_⟩
    · by_contra hne
      exact hnd (Or.inl (Bool.eq_false_iff.mpr hne))
    · by_contra hne
      exact hnd (Or.inr (Or.inl hne))
    · intro j hj hd
      have hlen : (pyGetList sentence1 "analysis").length =
          (pyGetList sentence2 "analysis").length := by
        by_contra hne
        exact hnd (Or.inr (Or.inl hne))
      exact hnd (Or.inr (Or.inr ⟨j, hj, by omega, hd⟩))

/-- The `ZIN i` header appears in a sentence block exactly when the block
is the one for index `i`, both documents have a sentence there, and the
pair differs. -/
theorem zinHeader_mem_sentence_block_iff {sentences1 sentences2 : List Json} {i n : Nat} :
    SLine.zinHeader n ∈ sentence_block sentences1 sentences2 i ↔
      (n = i ∧ i < sentences1.length ∧ i < sentences2.length ∧
        sentence_pair_differs (sentences1.getD i Json.null) (sentences2.getD i Json.null)) := by
  by_cases h1 : sentences1.length ≤ i
  · rw [sentence_block_missing1 h1]
    simp only [List.mem_singleton]
    constructor
    · intro hx
      exact absurd hx (by intro hc; cases hc)
    · rintro ⟨_, hlt, _, _⟩
      omega
  · by_cases h2 : sentences2.length ≤ i
    · rw [sentence_block_missing2 (by omega) h2]
      simp only [List.mem_singleton]
      constructor
      · intro hx
        exact absurd hx (by intro hc; cases hc)
      · rintro ⟨_, _, hlt, _⟩
        omega
    · have hblock : sentence_block sentences1 sentences2 i =
          (if (sentence_text_diffs (sentences1.getD i Json.null)
              (sentences2.getD i Json.null) i ++
              token_loop (pyGetList (sentences1.getD i Json.null) "analysis")
                (pyGetList (sentences2.getD i Json.null) "analysis")).isEmpty then []
           else SLine.zinHeader i ::
             (sentence_text_diffs (sentences1.getD i Json.null)
               (sentences2.getD i Json.null) i ++
               token_loop (pyGetList (sentences1.getD i Json.null) "analysis")
                 (pyGetList (sentences2.getD i Json.null) "analysis"))) := by
        unfold sentence_block
        rw [if_neg (by omega), if_neg (by omega)]
      rw [hblock]
      by_cases hsd : (sentence_text_diffs (sentences1.getD i Json.null)
          (sentences2.getD i Json.null) i ++
          token_loop (pyGetList (sentences1.getD i Json.null) "analysis")
            (pyGetList (sentences2.getD i Json.null) "analysis")) = []
      · rw [hsd]
        simp only [List.isEmpty_nil, if_true]
        constructor
        · intro hx
          simp at hx
        · rintro ⟨_, _, _, hdiff⟩
          exact absurd hdiff ((sd_eq_nil_iff _ _ i).mp hsd)
      · have hemp : (sentence_text_diffs (sentences1.getD i Json.null)
            (sentences2.getD i Json.null) i ++
            token_loop (pyGetList (sentences1.getD i Json.null) "analysis")
              (pyGetList (sentences2.getD i Json.null) "analysis")).isEmpty = false :=
          Bool.eq_false_iff.mpr (fun hb => hsd (List.isEmpty_iff.mp hb))
        rw [hemp]
        simp only [Bool.false_eq_true, if_false, List.mem_cons]
        constructor
        · intro hx
          rcases hx with heq | hmem
          · refine ⟨by injection heq, by omega, by omega, ?_⟩
            by_contra hnd
            exact hsd ((sd_eq_nil_iff _ _ i).mpr hnd)
          · rcases List.mem_append.mp hmem with ht | ht
            · exact absurd (mem_sentence_text_diffs ht) (by intro hc; cases hc)
            · rcases mem_token_loop ht with ⟨_, _, _, hc⟩ | ⟨_, _, _, hc⟩ |
                ⟨_, _, _, hc⟩ | ⟨_, _, _, _, hc⟩ <;> cases hc
        · rintro ⟨hn, _, _, _⟩
          exact Or.inl (by rw [hn])

/-- Unfolded form of the whole per-sentence comparison. -/
theorem compare_json_files_def (data1 data2 : Json) :
    compare_json_files data1 data2 =
      (List.range (max (pyGetList data1 "sentences").length
        (pyGetList data2 "sentences").length)).flatMap
        (sentence_block (pyGetList data1 "sentences") (pyGetList data2 "sentences")) := rfl

/-- The `ZIN n` header appears in the report exactly when both documents
have a sentence at index `n` and that pair differs. -/
theorem zinHeader_mem_compare_iff (data1 data2 : Json) (n : Nat) :
    SLine.zinHeader n ∈ compare_json_files data1 data2 ↔
      (n < (pyGetList data1 "sentences").length ∧
       n < (pyGetList data2 "sentences").length ∧
       sentence_pair_differs ((pyGetList data1 "sentences").getD n Json.null)
         ((pyGetList data2 "sentences").getD n Json.null)) := by
  rw [compare_json_files_def, List.mem_flatMap]
  constructor
  · rintro ⟨i, _, hmem⟩
    obtain ⟨hn, hl1, hl2, hd⟩ := zinHeader_mem_sentence_block_iff.mp hmem
    subst hn
    exact ⟨hl1, hl2, hd⟩
  · rintro ⟨hl1, hl2, hd⟩
    exact ⟨n, List.mem_range.mpr (by omega),
      zinHeader_mem_sentence_block_iff.mpr ⟨rfl, hl1, hl2, hd⟩⟩

/-- The missing-sentence matcher recognises exactly the notice line. -/
theorem slineIsZinOntbreekt_eq_true_iff {i f : Nat} {line : SLine} :
    slineIsZinOntbreekt i f line = true ↔ line = SLine.zinOntbreekt i f := by
  cases line <;> simp [slineIsZinOntbreekt]

/-- A missing-sentence notice inside a block carries that block's index. -/
theorem zinOntbreekt_mem_sentence_block {sentences1 sentences2 : List Json}
    {i n f : Nat} (h : SLine.zinOntbreekt n f ∈ sentence_block sentences1 sentences2 i) :
    n = i := by
  by_cases h1 : sentences1.length ≤ i
  · rw [sentence_block_missing1 h1] at h
    simp only [List.mem_singleton] at h
    injection h
  · by_cases h2 : sentences2.length ≤ i
    · rw [sentence_block_missing2 (by omega) h2] at h
      simp only [List.mem_singleton] at h
      injection h
    · have hblock : sentence_block sentences1 sentences2 i =
          (if (sentence_text_diffs (sentences1.getD i Json.null)
              (sentences2.getD i Json.null) i ++
              token_loop (pyGetList (sentences1.getD i Json.null) "analysis")
                (pyGetList (sentences2.getD i Json.null) "analysis")).isEmpty then []
           else SLine.zinHeader i ::
             (sentence_text_diffs (sentences1.getD i Json.null)
               (sentences2.getD i Json.null) i ++
               token_loop (pyGetList (sentences1.getD i Json.null) "analysis")
                 (pyGetList (sentences2.getD i Json.null) "analysis"))) := by
        unfold sentence_block
        rw [if_neg (by omega), if_neg (by omega)]
      rw [hblock] at h
      by_cases hsd : (sentence_text_diffs (sentences1.getD i Json.null)
          (sentences2.getD i Json.null) i ++
          token_loop (pyGetList (sentences1.getD i Json.null) "analysis")
            (pyGetList (sentences2.getD i Json.null) "analysis")) = []
      · rw [hsd] at h
        simp at h
      · have hemp := Bool.eq_false_iff.mpr (fun hb => hsd (List.isEmpty_iff.mp hb))
        rw [hemp] at h
        simp only [Bool.false_eq_true, if_false, List.mem_cons] at h
        rcases h with heq | hmem
        · cases heq
        · rcases List.mem_append.mp hmem with ht | ht
          · exact absurd (mem_sentence_text_diffs ht) (by intro hc; cases hc)
          · rcases mem_token_loop ht with ⟨_, _, _, hc⟩ | ⟨_, _, _, hc⟩ |
              ⟨_, _, _, hc⟩ | ⟨_, _, _, _, hc⟩ <;> cases hc

end PerSentence

namespace PerWord

/-- When every non-ignored field compares equal, the per-word token
comparison reports nothing. -/
theorem token_discrepancies_eq_nil_w {token1 token2 : Json} (i : Nat)
    (h : ∀ k, keys_to_ignore_token.contains k = false →
      jeq (pyGet token1 k) (pyGet token2 k) = true) :
    token_discrepancies token1 token2 i = [] := by
  rw [token_discrepancies_spec_w]
  have hany : (sorted_key_union token1 token2 keys_to_ignore_token).any
      (fun k => !(jeq (pyGet token1 k) (pyGet token2 k))) = false := by
    rw [Bool.eq_false_iff]
    intro hx
    obtain ⟨k, hk, hdiff⟩ := List.any_eq_true.mp hx
    rw [h k (mem_sorted_key_union.mp hk).2] at hdiff
    simp at hdiff
  rw [hany]
  simp

/-- Every line of one key's per-word group concerns exactly that key. -/
theorem mem_key_group_w {token1 token2 : Json} {k : String} {line : WLine}
    (h : line ∈ key_group token1 token2 k) :
    jeq (pyGet token1 k) (pyGet token2 k) = false ∧
      (line = WLine.verschil k (pyGet token1 k) (pyGet token2 k) ∨
       (k == "parsing_details" && isObj (pyGet token1 k) && isObj (pyGet token2 k)) = true ∧
       ∃ d, d ∈ sorted_detail_union (pyGet token1 k) (pyGet token2 k) ∧
         jeq (pyGet (pyGet token1 k) d) (pyGet (pyGet token2 k) d) = false ∧
         line = WLine.verschilDetail k d (pyGet (pyGet token1 k) d)
           (pyGet (pyGet token2 k) d)) := by
  unfold key_group at h
  by_cases hjeq : jeq (pyGet token1 k) (pyGet token2 k) = true
  · rw [if_pos hjeq] at h
    simp at h
  · refine ⟨Bool.eq_false_iff.mpr hjeq, ?_⟩
    rw [if_neg hjeq] at h
    unfold diff_lines_for_key at h
    by_cases hc : (k == "parsing_details" && isObj (pyGet token1 k) &&
        isObj (pyGet token2 k)) = true
    · rw [if_pos hc] at h
      unfold detail_diffs at h
      obtain ⟨d, hd, hline⟩ := List.mem_flatMap.mp h
      dsimp only at hline
      by_cases hsub : jeq (pyGet (pyGet token1 k) d) (pyGet (pyGet token2 k) d) = true
      · rw [if_pos hsub] at hline
        simp at hline
      · rw [if_neg hsub] at hline
        simp only [List.mem_singleton] at hline
        exact Or.inr ⟨hc, d, hd, Bool.eq_false_iff.mpr hsub, hline⟩
    · rw [if_neg hc] at h
      simp only [List.mem_singleton] at h
      exact Or.inl h

/-- Every line of the per-word token comparison is the token header or
belongs to the group of some key of the sorted union. -/
theorem mem_token_discrepancies_w {token1 token2 : Json} {i : Nat} {line : WLine}
    (h : line ∈ token_discrepancies token1 token2 i) :
    line = WLine.tokenHeader (pyGet token1 "token") (pyGet token2 "token") i ∨
      ∃ k, k ∈ sorted_key_union token1 token2 keys_to_ignore_token ∧
        line ∈ key_group token1 token2 k := by
  rw [token_discrepancies_spec_w] at h
  by_cases hb : (sorted_key_union token1 token2 keys_to_ignore_token).any
      (fun k => !(jeq (pyGet token1 k) (pyGet token2 k))) = true
  · rw [if_pos hb] at h
    rcases List.mem_cons.mp h with heq | hmem
    · exact Or.inl heq
    · obtain ⟨k, hk, hline⟩ := List.mem_flatMap.mp hmem
      exact Or.inr ⟨k, hk, hline⟩
  · rw [if_neg hb] at h
    simp at h

end PerWord

/-- A key that is absent or stores an explicit null reads as null. -/
theorem pyGet_null_of_absent_or_null {o : List (String × Json)} {k : String}
    (h : jlookup k o = none ∨ jlookup k o = some Json.null) :
    pyGet (Json.obj o) k = Json.null := by
  rcases h with h | h <;> simp [pyGet, h]

namespace PerSentence

/-- Closed form of a sentence block when both documents have the
sentence. -/
theorem sentence_block_both {sentences1 sentences2 : List Json} {i : Nat}
    (h1 : i < sentences1.length) (h2 : i < sentences2.length) :
    sentence_block sentences1 sentences2 i =
      (if (sentence_text_diffs (sentences1.getD i Json.null)
          (sentences2.getD i Json.null) i ++
          token_loop (pyGetList (sentences1.getD i Json.null) "analysis")
            (pyGetList (sentences2.getD i Json.null) "analysis")).isEmpty then []
       else SLine.zinHeader i ::
         (sentence_text_diffs (sentences1.getD i Json.null)
           (sentences2.getD i Json.null) i ++
           token_loop (pyGetList (sentences1.getD i Json.null) "analysis")
             (pyGetList (sentences2.getD i Json.null) "analysis"))) := by
  unfold sentence_block
  rw [if_neg (by omega), if_neg (by omega)]

/-- A present-present sentence pair without differences contributes no
lines at all. -/
theorem sentence_block_eq_nil {sentences1 sentences2 : List Json} {i : Nat}
    (h1 : i < sentences1.length) (h2 : i < sentences2.length)
    (hnd : ¬ sentence_pair_differs (sentences1.getD i Json.null)
      (sentences2.getD i Json.null)) :
    sentence_block sentences1 sentences2 i = [] := by
  rw [sentence_block_both h1 h2, (sd_eq_nil_iff _ _ i).mpr hnd]
  simp

/-- The comparison depends on the first document only through its
sentences list. -/
theorem compare_congr_left {data1 data1' data2 : Json}
    (h : pyGetList data1 "sentences" = pyGetList data1' "sentences") :
    compare_json_files data1 data2 = compare_json_files data1' data2 := by
  rw [compare_json_files_def, compare_json_files_def, h]

/-- The comparison depends on the second document only through its
sentences list. -/
theorem compare_congr_right {data1 data2 data2' : Json}
    (h : pyGetList data2 "sentences" = pyGetList data2' "sentences") :
    compare_json_files data1 data2 = compare_json_files data1 data2' := by
  rw [compare_json_files_def, compare_json_files_def, h]

end PerSentence

namespace PerWord

/-- Unfolded form of the whole per-word comparison. -/
theorem compare_analyses_def (data1 data2 : Json) :
    compare_analyses data1 data2 =
      (List.range (max (flatten_tokens data1).length (flatten_tokens data2).length)).flatMap
        (fun i =>
          if i ≥ (flatten_tokens data1).length then
            [WLine.extraToken i 2 (pyGet ((flatten_tokens data2).getD i Json.null) "token")]
          else if i ≥ (flatten_tokens data2).length then
            [WLine.extraToken i 1 (pyGet ((flatten_tokens data1).getD i Json.null) "token")]
          else
            token_discrepancies ((flatten_tokens data1).getD i Json.null)
              ((flatten_tokens data2).getD i Json.null) i) := rfl

/-- Flattening depends on the document only through its sentences list. -/
theorem flatten_congr {data data' : Json}
    (h : pyGetList data "sentences" = pyGetList data' "sentences") :
    flatten_tokens data = flatten_tokens data' := by
  unfold flatten_tokens
  rw [h]

/-- The per-word comparison depends on the documents only through their
flattened token sequences. -/
theorem compare_analyses_congr {data1 data1' data2 data2' : Json}
    (h1 : flatten_tokens data1 = flatten_tokens data1')
    (h2 : flatten_tokens data2 = flatten_tokens data2') :
    compare_analyses data1 data2 = compare_analyses data1' data2' := by
  rw [compare_analyses_def, compare_analyses_def, h1, h2]

end PerWord

/-- C4: in both modes a document whose top-level record has no `sentences`
field is treated exactly like a document with zero sentences: against any
other document it compares exactly as the explicit zero-sentence document
does (no error), and two such documents compare to the fixed
no-discrepancies report. -/
theorem C4_missing_sentences_lenient (o1 o2 : List (String × Json))
    (h1 : jlookup "sentences" o1 = none) (h2 : jlookup "sentences" o2 = none) :
    (∀ other : Json,
      (PerSentence.compare_json_files (Json.obj o1) other =
        PerSentence.compare_json_files (Json.obj [("sentences", Json.arr [])]) other) ∧
      (PerSentence.compare_json_files other (Json.obj o1) =
        PerSentence.compare_json_files other (Json.obj [("sentences", Json.arr [])])) ∧
      (PerWord.compare_analyses (Json.obj o1) other =
        PerWord.compare_analyses (Json.obj [("sentences", Json.arr [])]) other) ∧
      (PerWord.compare_analyses other (Json.obj o1) =
        PerWord.compare_analyses other (Json.obj [("sentences", Json.arr [])]))) ∧
    PerSentence.finalReport (Json.obj o1) (Json.obj o2) =
      PerSentence.Report.geenDiscrepanties ∧
    PerWord.finalReport (Json.obj o1) (Json.obj o2) =
      PerWord.Report.geenInhoudelijkeDiscrepanties := by
  have he1 : pyGetList (Json.obj o1) "sentences" = [] := by simp [pyGetList, h1]
  have he2 : pyGetList (Json.obj o2) "sentences" = [] := by simp [pyGetList, h2]
  have hee : pyGetList (Json.obj [("sentences", Json.arr [])]) "sentences" = [] := rfl
  refine ⟨fun other => ⟨?_, ?_, ?_, ?_⟩, ?_, ?_⟩
  · exact PerSentence.compare_congr_left (by rw [he1, hee])
  · exact PerSentence.compare_congr_right (by rw [he1, hee])
  · exact PerWord.compare_analyses_congr (PerWord.flatten_congr (by rw [he1, hee])) rfl
  · exact PerWord.compare_analyses_congr rfl (PerWord.flatten_congr (by rw [he1, hee]))
  · have hc : PerSentence.compare_json_files (Json.obj o1) (Json.obj o2) = [] := by
      rw [PerSentence.compare_json_files_def, he1, he2]
      rfl
    simp [PerSentence.finalReport, hc]
  · have hf1 : PerWord.flatten_tokens (Json.obj o1) = [] := by
      unfold PerWord.flatten_tokens
      rw [he1]
      rfl
    have hf2 : PerWord.flatten_tokens (Json.obj o2) = [] := by
      unfold PerWord.flatten_tokens
      rw [he2]
      rfl
    have hc : PerWord.compare_analyses (Json.obj o1) (Json.obj o2) = [] := by
      rw [PerWord.compare_analyses_def, hf1, hf2]
      rfl
    simp [PerWord.finalReport, hc]

/-- C4 witness: the theorem applied to two concrete documents without a
`sentences` field. -/
theorem C4_witness :
    PerSentence.finalReport (Json.obj [("title", Json.str "t")]) (Json.obj []) =
      PerSentence.Report.geenDiscrepanties ∧
    PerWord.compare_analyses (Json.obj [("title", Json.str "t")]) exDocNom =
      PerWord.compare_analyses (Json.obj [("sentences", Json.arr [])]) exDocNom :=
  ⟨(C4_missing_sentences_lenient [("title", Json.str "t")] [] rfl rfl).2.1,
   ((C4_missing_sentences_lenient [("title", Json.str "t")] [] rfl rfl).1 exDocNom).2.2.1⟩

/-- C5 counterexample: a document whose top level has no `sentences` field
is NOT treated as a fatal error: both scripts run the full comparison on
it and write the ordinary no-discrepancies report. -/
theorem C5_counterexample :
    PerSentence.run (LoadResult.ok (Json.obj [("title", Json.str "t")]))
        (LoadResult.ok (Json.obj [("title", Json.str "t")])) =
      some PerSentence.Report.geenDiscrepanties ∧
    PerWord.run (LoadResult.ok (Json.obj [("title", Json.str "t")]))
        (LoadResult.ok (Json.obj [("title", Json.str "t")])) =
      some PerWord.Report.geenInhoudelijkeDiscrepanties :=
  ⟨rfl, rfl⟩

/-- C5 amended: only a missing input file or a JSON decode failure is
fatal; then either script reports the failure and returns before any
comparison, so no report output is produced. -/
theorem C5_fatal_errors (r1 r2 : LoadResult)
    (h : r1 = LoadResult.fileNotFound ∨ r1 = LoadResult.jsonDecodeError ∨
         r2 = LoadResult.fileNotFound ∨ r2 = LoadResult.jsonDecodeError) :
    PerSentence.run r1 r2 = none ∧ PerWord.run r1 r2 = none := by
  rcases h with h | h | h | h
  · subst h; cases r2 <;> exact ⟨rfl, rfl⟩
  · subst h; cases r2 <;> exact ⟨rfl, rfl⟩
  · subst h; cases r1 <;> exact ⟨rfl, rfl⟩
  · subst h; cases r1 <;> exact ⟨rfl, rfl⟩

/-- C5 witness: a missing first input file produces no report in either
mode. -/
theorem C5_witness :
    PerSentence.run LoadResult.fileNotFound (LoadResult.ok exDocNom) = none ∧
    PerWord.run LoadResult.fileNotFound (LoadResult.ok exDocNom) = none :=
  C5_fatal_errors _ _ (Or.inl rfl)

/-- C2 counterexample: in Mode A two documents identical except for a
token's `gloss` value produce the no-discrepancies report, so the gloss
difference is NOT reported (gloss is in Mode A's ignore set too). -/
theorem C2_counterexample :
    jeq (pyGet glossTok1 "gloss") (pyGet glossTok2 "gloss") = false ∧
    PerSentence.finalReport glossDoc1 glossDoc2 =
      PerSentence.Report.geenDiscrepanties :=
  ⟨rfl, rfl⟩

/-- C2 amended: in Mode A both `dictionary_entry_nl` and `gloss` are
excluded from the token comparison: tokens whose non-ignored fields all
compare equal produce no discrepancy, whatever their gloss values. -/
theorem C2_gloss_ignored_mode_a (token1 token2 : Json) (j : Nat)
    (h : ∀ k ∈ sorted_key_union token1 token2 PerSentence.keys_to_ignore_token,
      jeq (pyGet token1 k) (pyGet token2 k) = true) :
    PerSentence.token_discrepancies token1 token2 j = [] := by
  rw [PerSentence.token_discrepancies_spec]
  have hany : (sorted_key_union token1 token2 PerSentence.keys_to_ignore_token).any
      (fun k => !(jeq (pyGet token1 k) (pyGet token2 k))) = false := by
    rw [Bool.eq_false_iff]
    intro hx
    obtain ⟨k, hk, hdiff⟩ := List.any_eq_true.mp hx
    rw [h k hk] at hdiff
    simp at hdiff
  rw [hany]
  simp

/-- C2 amended witness: concrete gloss-differing tokens compared in
Mode A. -/
theorem C2_witness :
    (∀ k ∈ sorted_key_union glossTok1 glossTok2 PerSentence.keys_to_ignore_token,
      jeq (pyGet glossTok1 k) (pyGet glossTok2 k) = true) ∧
    PerSentence.token_discrepancies glossTok1 glossTok2 0 = [] :=
  ⟨by decide, C2_gloss_ignored_mode_a glossTok1 glossTok2 0 (by decide)⟩

/-- C3: in Mode B tokens at the same overall position that differ only in
`dictionary_entry_nl` and/or `gloss` (every other field compares equal)
produce no token-level discrepancy. -/
theorem C3_mode_b_ignore_exclusion (token1 token2 : Json) (i : Nat)
    (h : ∀ k ∈ sorted_key_union token1 token2 PerWord.keys_to_ignore_token,
      jeq (pyGet token1 k) (pyGet token2 k) = true) :
    PerWord.token_discrepancies token1 token2 i = [] := by
  rw [PerWord.token_discrepancies_spec_w]
  have hany : (sorted_key_union token1 token2 PerWord.keys_to_ignore_token).any
      (fun k => !(jeq (pyGet token1 k) (pyGet token2 k))) = false := by
    rw [Bool.eq_false_iff]
    intro hx
    obtain ⟨k, hk, hdiff⟩ := List.any_eq_true.mp hx
    rw [h k hk] at hdiff
    simp at hdiff
  rw [hany]
  simp

/-- C3 witness: concrete gloss-differing tokens compared in Mode B. -/
theorem C3_witness :
    (∀ k ∈ sorted_key_union glossTok1 glossTok2 PerWord.keys_to_ignore_token,
      jeq (pyGet glossTok1 k) (pyGet glossTok2 k) = true) ∧
    PerWord.token_discrepancies glossTok1 glossTok2 0 = [] :=
  ⟨by decide, C3_mode_b_ignore_exclusion glossTok1 glossTok2 0 (by decide)⟩

/-- C7: in Mode A the sentence comparison touches only the source text and
the token analyses, so translation fields (`translation_nl`,
`translation_en`, `translation_fr`) are excluded: any two documents whose
sentence pairs have Python-equal `sentence_text` values and Python-equal
token lists produce the no-discrepancies report, whatever their
translation fields hold. -/
theorem C7_translations_ignored (data1 data2 : Json)
    (h : List.Forall₂ (fun sentence1 sentence2 =>
          jeq (pyGet sentence1 "sentence_text") (pyGet sentence2 "sentence_text") = true ∧
          List.Forall₂ (fun t1 t2 => jeq t1 t2 = true ∧ keysNodup t1 ∧ keysNodup t2)
            (pyGetList sentence1 "analysis") (pyGetList sentence2 "analysis"))
        (pyGetList data1 "sentences") (pyGetList data2 "sentences")) :
    PerSentence.finalReport data1 data2 = PerSentence.Report.geenDiscrepanties := by
  obtain ⟨hlen, hget⟩ := List.forall₂_iff_get.mp h
  have hc : PerSentence.compare_json_files data1 data2 = [] := by
    rw [PerSentence.compare_json_files_def, List.flatMap_eq_nil_iff]
    intro i hi
    rw [List.mem_range] at hi
    have hi1 : i < (pyGetList data1 "sentences").length := by omega
    have hi2 : i < (pyGetList data2 "sentences").length := by omega
    have hR := hget i hi1 hi2
    rw [List.get_eq_getElem, List.get_eq_getElem,
      ← List.getD_eq_getElem _ Json.null hi1, ← List.getD_eq_getElem _ Json.null hi2] at hR
    obtain ⟨htext, htoks⟩ := hR
    refine PerSentence.sentence_block_eq_nil hi1 hi2 ?_
    intro hdiff
    rcases hdiff with hd | hd | ⟨j, hj1, hj2, k, hk, hdk⟩
    · rw [htext] at hd
      exact absurd hd (by simp)
    · exact hd htoks.length_eq
    · obtain ⟨hlen2, hget2⟩ := List.forall₂_iff_get.mp htoks
      have hRt := hget2 j hj1 hj2
      rw [List.get_eq_getElem, List.get_eq_getElem,
        ← List.getD_eq_getElem _ Json.null hj1, ← List.getD_eq_getElem _ Json.null hj2] at hRt
      obtain ⟨hjeqt, hn1, hn2⟩ := hRt
      rw [pyGet_jeq_of_jeq hn1 hn2 hjeqt k] at hdk
      exact absurd hdk (by simp)
  simp [PerSentence.finalReport, hc]

/-- C7 witness: two concrete one-sentence documents that differ only in
translation fields compare without discrepancies. -/
theorem C7_witness :
    PerSentence.finalReport transDoc1 transDoc2 =
      PerSentence.Report.geenDiscrepanties := by
  apply C7_translations_ignored
  have e1 : pyGetList transDoc1 "sentences" = [transSent1] := rfl
  have e2 : pyGetList transDoc2 "sentences" = [transSent2] := rfl
  rw [e1, e2]
  refine List.Forall₂.cons ⟨by decide, ?_⟩ List.Forall₂.nil
  have e3 : pyGetList transSent1 "analysis" = [exTokenNom] := rfl
  have e4 : pyGetList transSent2 "analysis" = [exTokenNom] := rfl
  rw [e3, e4]
  exact List.Forall₂.cons ⟨by decide, by unfold keysNodup; decide, by unfold keysNodup; decide⟩ List.Forall₂.nil

/-- C6: Mode B depends only on the flattened token sequences: whenever the
two documents' flattened sequences are elementwise Python-equal, the
per-word comparison reports nothing, regardless of sentence segmentation
or sentence texts. -/
theorem C6_flattened_equivalence (data1 data2 : Json)
    (h : List.Forall₂ (fun t1 t2 => jeq t1 t2 = true ∧ keysNodup t1 ∧ keysNodup t2)
          (PerWord.flatten_tokens data1) (PerWord.flatten_tokens data2)) :
    PerWord.compare_analyses data1 data2 = [] ∧
    PerWord.finalReport data1 data2 = PerWord.Report.geenInhoudelijkeDiscrepanties := by
  obtain ⟨hlen, hget⟩ := List.forall₂_iff_get.mp h
  have hc : PerWord.compare_analyses data1 data2 = [] := by
    rw [PerWord.compare_analyses_def, List.flatMap_eq_nil_iff]
    intro i hi
    rw [List.mem_range] at hi
    have hi1 : i < (PerWord.flatten_tokens data1).length := by omega
    have hi2 : i < (PerWord.flatten_tokens data2).length := by omega
    rw [if_neg (by omega), if_neg (by omega)]
    have hR := hget i hi1 hi2
    rw [List.get_eq_getElem, List.get_eq_getElem,
      ← List.getD_eq_getElem _ Json.null hi1, ← List.getD_eq_getElem _ Json.null hi2] at hR
    obtain ⟨hjeqt, hn1, hn2⟩ := hR
    refine PerWord.token_discrepancies_eq_nil_w i ?_
    intro k _
    exact pyGet_jeq_of_jeq hn1 hn2 hjeqt k
  exact ⟨hc, by simp [PerWord.finalReport, hc]⟩

/-- C6 witness: the same two tokens, segmented as one sentence in one
document and as two sentences with different sentence texts in the other,
compare without discrepancies in Mode B. -/
theorem C6_witness :
    PerWord.compare_analyses segDoc1 segDoc2 = [] := by
  refine (C6_flattened_equivalence segDoc1 segDoc2 ?_).1
  have e1 : PerWord.flatten_tokens segDoc1 = [exTokenNom, exTokenAcc] := rfl
  have e2 : PerWord.flatten_tokens segDoc2 = [exTokenNom, exTokenAcc] := rfl
  rw [e1, e2]
  exact List.Forall₂.cons ⟨by decide, by unfold keysNodup; decide, by unfold keysNodup; decide⟩
    (List.Forall₂.cons ⟨by decide, by unfold keysNodup; decide, by unfold keysNodup; decide⟩ List.Forall₂.nil)

/-- C1: in both modes, when two tokens at the same position have all their
non-ignored fields compare equal except `parsing_details`, whose values
are both dictionaries and differ, the comparison emits the token header
followed by exactly the one-level drill-down: one value pair per differing
sub-key of the lexicographically sorted union of sub-key names, each line
naming `parsing_details.<sub-key>`, and no generic whole-value
`parsing_details` line. -/
theorem C1_nested_drilldown (token1 token2 : Json) (j : Nat)
    (p1 p2 : List (String × Json))
    (hv1 : pyGet token1 "parsing_details" = Json.obj p1)
    (hv2 : pyGet token2 "parsing_details" = Json.obj p2)
    (hne : jeq (Json.obj p1) (Json.obj p2) = false)
    (hoth : ∀ k ∈ sorted_key_union token1 token2 PerSentence.keys_to_ignore_token,
      k ≠ "parsing_details" → jeq (pyGet token1 k) (pyGet token2 k) = true) :
    PerSentence.token_discrepancies token1 token2 j =
      PerSentence.SLine.tokenHeader (pyGet token1 "token") (pyGet token2 "token") j ::
        (sorted_detail_union (Json.obj p1) (Json.obj p2)).flatMap (fun d =>
          if jeq (pyGet (Json.obj p1) d) (pyGet (Json.obj p2) d) then []
          else [PerSentence.SLine.verschilDetail "parsing_details" d
            (pyGet (Json.obj p1) d) (pyGet (Json.obj p2) d)]) ∧
    PerWord.token_discrepancies token1 token2 j =
      PerWord.WLine.tokenHeader (pyGet token1 "token") (pyGet token2 "token") j ::
        (sorted_detail_union (Json.obj p1) (Json.obj p2)).flatMap (fun d =>
          if jeq (pyGet (Json.obj p1) d) (pyGet (Json.obj p2) d) then []
          else [PerWord.WLine.verschilDetail "parsing_details" d
            (pyGet (Json.obj p1) d) (pyGet (Json.obj p2) d)]) := by
  have hpdne : jeq (pyGet token1 "parsing_details") (pyGet token2 "parsing_details") = false := by
    rw [hv1, hv2]
    exact hne
  constructor
  · have hpd_mem : "parsing_details" ∈
        sorted_key_union token1 token2 PerSentence.keys_to_ignore_token :=
      mem_sorted_key_union.mpr ⟨mem_keys_of_jeq_pyGet_false hpdne, by decide⟩
    have hany : (sorted_key_union token1 token2 PerSentence.keys_to_ignore_token).any
        (fun k => !(jeq (pyGet token1 k) (pyGet token2 k))) = true :=
      List.any_eq_true.mpr ⟨"parsing_details", hpd_mem, by simp [hpdne]⟩
    rw [PerSentence.token_discrepancies_spec, if_pos hany]
    congr 1
    have hflat : (sorted_key_union token1 token2 PerSentence.keys_to_ignore_token).flatMap
        (PerSentence.key_group token1 token2) =
        PerSentence.key_group token1 token2 "parsing_details" := by
      refine flatMap_eq_single
        (List.count_eq_one_of_mem (nodup_sorted_key_union _ _ _) hpd_mem) ?_
      intro x hx hxne
      unfold PerSentence.key_group
      rw [if_pos (hoth x hx hxne)]
    rw [hflat]
    unfold PerSentence.key_group
    rw [if_neg (by rw [hpdne]; exact Bool.false_ne_true)]
    simp only [PerSentence.diff_lines_for_key, hv1, hv2]
    rw [if_pos (by simp [isObj])]
    simp only [PerSentence.detail_diffs, hv1, hv2]
  · have hpd_mem : "parsing_details" ∈
        sorted_key_union token1 token2 PerWord.keys_to_ignore_token :=
      mem_sorted_key_union.mpr ⟨mem_keys_of_jeq_pyGet_false hpdne, by decide⟩
    have hany : (sorted_key_union token1 token2 PerWord.keys_to_ignore_token).any
        (fun k => !(jeq (pyGet token1 k) (pyGet token2 k))) = true :=
      List.any_eq_true.mpr ⟨"parsing_details", hpd_mem, by simp [hpdne]⟩
    rw [PerWord.token_discrepancies_spec_w, if_pos hany]
    congr 1
    have hflat : (sorted_key_union token1 token2 PerWord.keys_to_ignore_token).flatMap
        (PerWord.key_group token1 token2) =
        PerWord.key_group token1 token2 "parsing_details" := by
      refine flatMap_eq_single
        (List.count_eq_one_of_mem (nodup_sorted_key_union _ _ _) hpd_mem) ?_
      intro x hx hxne
      unfold PerWord.key_group
      rw [if_pos (hoth x hx hxne)]
    rw [hflat]
    unfold PerWord.key_group
    rw [if_neg (by rw [hpdne]; exact Bool.false_ne_true)]
    simp only [PerWord.diff_lines_for_key, hv1, hv2]
    rw [if_pos (by simp [isObj])]
    simp only [PerWord.detail_diffs, hv1, hv2]

/-- C1 witness: tokens identical except `parsing_details.case`
(nominative vs accusative) produce, in both modes, a token header and one
line naming `parsing_details.case` with both sub-values. -/
theorem C1_witness :
    PerSentence.token_discrepancies exTokenNom exTokenAcc 0 =
      [PerSentence.SLine.tokenHeader (Json.str "logos") (Json.str "logos") 0,
       PerSentence.SLine.verschilDetail "parsing_details" "case"
         (Json.str "nominative") (Json.str "accusative")] ∧
    PerWord.token_discrepancies exTokenNom exTokenAcc 0 =
      [PerWord.WLine.tokenHeader (Json.str "logos") (Json.str "logos") 0,
       PerWord.WLine.verschilDetail "parsing_details" "case"
         (Json.str "nominative") (Json.str "accusative")] := by
  obtain ⟨h1, h2⟩ := C1_nested_drilldown exTokenNom exTokenAcc 0
    [("case", Json.str "nominative")] [("case", Json.str "accusative")]
    rfl rfl (by decide) (by decide)
  constructor
  · rw [h1]
    rfl
  · rw [h2]
    rfl

/-- C10: in both modes, when the two `parsing_details` values of a token
pair differ and at least one of them is not a dictionary, the comparison
emits exactly one whole-value `parsing_details` line, carrying both
values, and no drill-down (sub-field) line at all. -/
theorem C10_whole_value_line (token1 token2 : Json) (j : Nat)
    (hne : jeq (pyGet token1 "parsing_details") (pyGet token2 "parsing_details") = false)
    (hnb : (isObj (pyGet token1 "parsing_details") &&
            isObj (pyGet token2 "parsing_details")) = false) :
    ((PerSentence.token_discrepancies token1 token2 j).countP
        (PerSentence.slineIsVerschilKey "parsing_details") = 1 ∧
     PerSentence.SLine.verschil "parsing_details" (pyGet token1 "parsing_details")
        (pyGet token2 "parsing_details") ∈
          PerSentence.token_discrepancies token1 token2 j ∧
     (PerSentence.token_discrepancies token1 token2 j).countP
        PerSentence.slineIsDetail = 0) ∧
    ((PerWord.token_discrepancies token1 token2 j).countP
        (PerWord.wlineIsVerschilKey "parsing_details") = 1 ∧
     PerWord.WLine.verschil "parsing_details" (pyGet token1 "parsing_details")
        (pyGet token2 "parsing_details") ∈
          PerWord.token_discrepancies token1 token2 j ∧
     (PerWord.token_discrepancies token1 token2 j).countP
        PerWord.wlineIsDetail = 0) := by
  constructor
  · have hpd_mem : "parsing_details" ∈
        sorted_key_union token1 token2 PerSentence.keys_to_ignore_token :=
      mem_sorted_key_union.mpr ⟨mem_keys_of_jeq_pyGet_false hne, by decide⟩
    have hany : (sorted_key_union token1 token2 PerSentence.keys_to_ignore_token).any
        (fun k => !(jeq (pyGet token1 k) (pyGet token2 k))) = true :=
      List.any_eq_true.mpr ⟨"parsing_details", hpd_mem, by simp [hne]⟩
    have hgroup : PerSentence.key_group token1 token2 "parsing_details" =
        [PerSentence.SLine.verschil "parsing_details" (pyGet token1 "parsing_details")
          (pyGet token2 "parsing_details")] := by
      unfold PerSentence.key_group
      rw [if_neg (by rw [hne]; exact Bool.false_ne_true)]
      simp only [PerSentence.diff_lines_for_key]
      rw [if_neg (by simp [hnb])]
    rw [PerSentence.token_discrepancies_spec, if_pos hany]
    refine ⟨?_, ?_, ?_⟩
    · rw [List.countP_cons]
      have hflat : ((sorted_key_union token1 token2 PerSentence.keys_to_ignore_token).flatMap
          (PerSentence.key_group token1 token2)).countP
            (PerSentence.slineIsVerschilKey "parsing_details") =
          (PerSentence.key_group token1 token2 "parsing_details").countP
            (PerSentence.slineIsVerschilKey "parsing_details") := by
        refine countP_flatMap_single
          (List.count_eq_one_of_mem (nodup_sorted_key_union _ _ _) hpd_mem) ?_
        intro x hx hxne
        rw [List.countP_eq_zero]
        intro line hline hp
        rcases (PerSentence.mem_key_group hline).2 with hl | ⟨_, d, _, _, hl⟩
        · subst hl
          simp only [PerSentence.slineIsVerschilKey] at hp
          exact hxne (by simpa using hp)
        · subst hl
          simp [PerSentence.slineIsVerschilKey] at hp
      rw [hflat, hgroup]
      simp [PerSentence.slineIsVerschilKey]
    · refine List.mem_cons_of_mem _ (List.mem_flatMap.mpr ⟨"parsing_details", hpd_mem, ?_⟩)
      rw [hgroup]
      exact List.mem_singleton.mpr rfl
    · rw [List.countP_eq_zero]
      intro line hline
      rcases List.mem_cons.mp hline with hl | hl
      · subst hl
        simp [PerSentence.slineIsDetail]
      · obtain ⟨x, hx, hg⟩ := List.mem_flatMap.mp hl
        rcases (PerSentence.mem_key_group hg).2 with hv | ⟨hguard, d, _, _, hv⟩
        · subst hv
          simp [PerSentence.slineIsDetail]
        · rw [Bool.and_eq_true, Bool.and_eq_true] at hguard
          obtain ⟨⟨hxk, ho1⟩, ho2⟩ := hguard
          have hxeq : x = "parsing_details" := by simpa using hxk
          subst hxeq
          rw [ho1, ho2] at hnb
          simp at hnb
  · have hpd_mem : "parsing_details" ∈
        sorted_key_union token1 token2 PerWord.keys_to_ignore_token :=
      mem_sorted_key_union.mpr ⟨mem_keys_of_jeq_pyGet_false hne, by decide⟩
    have hany : (sorted_key_union token1 token2 PerWord.keys_to_ignore_token).any
        (fun k => !(jeq (pyGet token1 k) (pyGet token2 k))) = true :=
      List.any_eq_true.mpr ⟨"parsing_details", hpd_mem, by simp [hne]⟩
    have hgroup : PerWord.key_group token1 token2 "parsing_details" =
        [PerWord.WLine.verschil "parsing_details" (pyGet token1 "parsing_details")
          (pyGet token2 "parsing_details")] := by
      unfold PerWord.key_group
      rw [if_neg (by rw [hne]; exact Bool.false_ne_true)]
      simp only [PerWord.diff_lines_for_key]
      rw [if_neg (by simp [hnb])]
    rw [PerWord.token_discrepancies_spec_w, if_pos hany]
    refine ⟨?_, ?_, ?_⟩
    · rw [List.countP_cons]
      have hflat : ((sorted_key_union token1 token2 PerWord.keys_to_ignore_token).flatMap
          (PerWord.key_group token1 token2)).countP
            (PerWord.wlineIsVerschilKey "parsing_details") =
          (PerWord.key_group token1 token2 "parsing_details").countP
            (PerWord.wlineIsVerschilKey "parsing_details") := by
        refine countP_flatMap_single
          (List.count_eq_one_of_mem (nodup_sorted_key_union _ _ _) hpd_mem) ?_
        intro x hx hxne
        rw [List.countP_eq_zero]
        intro line hline hp
        rcases (PerWord.mem_key_group_w hline).2 with hl | ⟨_, d, _, _, hl⟩
        · subst hl
          simp only [PerWord.wlineIsVerschilKey] at hp
          exact hxne (by simpa using hp)
        · subst hl
          simp [PerWord.wlineIsVerschilKey] at hp
      rw [hflat, hgroup]
      simp [PerWord.wlineIsVerschilKey]
    · refine List.mem_cons_of_mem _ (List.mem_flatMap.mpr ⟨"parsing_details", hpd_mem, ?_⟩)
      rw [hgroup]
      exact List.mem_singleton.mpr rfl
    · rw [List.countP_eq_zero]
      intro line hline
      rcases List.mem_cons.mp hline with hl | hl
      · subst hl
        simp [PerWord.wlineIsDetail]
      · obtain ⟨x, hx, hg⟩ := List.mem_flatMap.mp hl
        rcases (PerWord.mem_key_group_w hg).2 with hv | ⟨hguard, d, _, _, hv⟩
        · subst hv
          simp [PerWord.wlineIsDetail]
        · rw [Bool.and_eq_true, Bool.and_eq_true] at hguard
          obtain ⟨⟨hxk, ho1⟩, ho2⟩ := hguard
          have hxeq : x = "parsing_details" := by simpa using hxk
          subst hxeq
          rw [ho1, ho2] at hnb
          simp at hnb

/-- C10 witness: a dictionary against a null `parsing_details` value gives
the single whole-value line and no drill-down in both modes. -/
theorem C10_witness :
    PerSentence.SLine.verschil "parsing_details"
        (Json.obj [("case", Json.str "nominative")]) Json.null ∈
      PerSentence.token_discrepancies pdTok1 pdTok2 0 ∧
    (PerWord.token_discrepancies pdTok1 pdTok2 0).countP PerWord.wlineIsDetail = 0 := by
  obtain ⟨⟨_, hmem, _⟩, ⟨_, _, hdet⟩⟩ :=
    C10_whole_value_line pdTok1 pdTok2 0 (by decide) (by decide)
  exact ⟨hmem, hdet⟩

/-- C9: in both modes the comparison cannot distinguish an absent field
from one stored as explicit null: at token level, a field absent or null
on both sides (in any combination) is never named by any report line; and
inside the one-level `parsing_details` recursion, a sub-key absent or
null on both sides never yields a drill-down line. -/
theorem C9_null_absent_indistinguishable :
    (∀ (o1 o2 : List (String × Json)) (j : Nat) (k : String),
      (jlookup k o1 = none ∨ jlookup k o1 = some Json.null) →
      (jlookup k o2 = none ∨ jlookup k o2 = some Json.null) →
      (∀ line ∈ PerSentence.token_discrepancies (Json.obj o1) (Json.obj o2) j,
        PerSentence.slineMentionsKey line k = false) ∧
      (∀ line ∈ PerWord.token_discrepancies (Json.obj o1) (Json.obj o2) j,
        PerWord.wlineMentionsKey line k = false)) ∧
    (∀ (token1 token2 : Json) (j : Nat) (p1 p2 : List (String × Json)) (d : String),
      pyGet token1 "parsing_details" = Json.obj p1 →
      pyGet token2 "parsing_details" = Json.obj p2 →
      (jlookup d p1 = none ∨ jlookup d p1 = some Json.null) →
      (jlookup d p2 = none ∨ jlookup d p2 = some Json.null) →
      ∀ a b, PerSentence.SLine.verschilDetail "parsing_details" d a b ∉
          PerSentence.token_discrepancies token1 token2 j ∧
        PerWord.WLine.verschilDetail "parsing_details" d a b ∉
          PerWord.token_discrepancies token1 token2 j) := by
  constructor
  · intro o1 o2 j k h1 h2
    have hk : jeq (pyGet (Json.obj o1) k) (pyGet (Json.obj o2) k) = true := by
      rw [pyGet_null_of_absent_or_null h1, pyGet_null_of_absent_or_null h2]
      rfl
    constructor
    · intro line hline
      rcases PerSentence.mem_token_discrepancies hline with hh | ⟨x, _, hg⟩
      · subst hh
        rfl
      · obtain ⟨hxdiff, hshape⟩ := PerSentence.mem_key_group hg
        have hxk : x ≠ k := by
          intro hxe
          subst hxe
          rw [hk] at hxdiff
          exact absurd hxdiff (by simp)
        rcases hshape with hl | ⟨_, d2, _, _, hl⟩
        · subst hl
          simp only [PerSentence.slineMentionsKey]
          exact beq_eq_false_iff_ne.mpr hxk
        · subst hl
          simp only [PerSentence.slineMentionsKey]
          exact beq_eq_false_iff_ne.mpr hxk
    · intro line hline
      rcases PerWord.mem_token_discrepancies_w hline with hh | ⟨x, _, hg⟩
      · subst hh
        rfl
      · obtain ⟨hxdiff, hshape⟩ := PerWord.mem_key_group_w hg
        have hxk : x ≠ k := by
          intro hxe
          subst hxe
          rw [hk] at hxdiff
          exact absurd hxdiff (by simp)
        rcases hshape with hl | ⟨_, d2, _, _, hl⟩
        · subst hl
          simp only [PerWord.wlineMentionsKey]
          exact beq_eq_false_iff_ne.mpr hxk
        · subst hl
          simp only [PerWord.wlineMentionsKey]
          exact beq_eq_false_iff_ne.mpr hxk
  · intro token1 token2 j p1 p2 d hv1 hv2 hd1 hd2 a b
    have hdnull : jeq (pyGet (Json.obj p1) d) (pyGet (Json.obj p2) d) = true := by
      rw [pyGet_null_of_absent_or_null hd1, pyGet_null_of_absent_or_null hd2]
      rfl
    constructor
    · intro hmem
      rcases PerSentence.mem_token_discrepancies hmem with hh | ⟨x, _, hg⟩
      · cases hh
      · obtain ⟨_, hshape⟩ := PerSentence.mem_key_group hg
        rcases hshape with hl | ⟨_, d2, _, hdne, hl⟩
        · cases hl
        · injection hl with hk1 hk2 hk3 hk4
          subst hk1
          subst hk2
          rw [hv1, hv2, hdnull] at hdne
          exact absurd hdne (by simp)
    · intro hmem
      rcases PerWord.mem_token_discrepancies_w hmem with hh | ⟨x, _, hg⟩
      · cases hh
      · obtain ⟨_, hshape⟩ := PerWord.mem_key_group_w hg
        rcases hshape with hl | ⟨_, d2, _, hdne, hl⟩
        · cases hl
        · injection hl with hk1 hk2 hk3 hk4
          subst hk1
          subst hk2
          rw [hv1, hv2, hdnull] at hdne
          exact absurd hdne (by simp)

/-- C9 witness: against a token that stores `extra` as explicit null, a
token lacking `extra` produces a report in which no line names `extra`,
even though other fields differ. -/
theorem C9_witness :
    (PerSentence.token_discrepancies nullTok1 nullTok2 0).countP
      (fun line => PerSentence.slineMentionsKey line "extra") = 0 := by
  rw [List.countP_eq_zero]
  intro line hline
  have h := ((C9_null_absent_indistinguishable).1
    [("token", Json.str "x"), ("lemma", Json.str "a")]
    [("token", Json.str "x"), ("extra", Json.null), ("lemma", Json.str "b")]
    0 "extra" (Or.inl rfl) (Or.inr rfl)).1 line hline
  simp [h]

/-- C8: in Mode A the `ZIN i` header appears exactly for sentence indices
present in both documents where some difference (text, length or token
field) exists, so blocks without discrepancies are omitted entirely; for
an index present in only one document the block is exactly the one-line
notice naming the document missing the sentence — no token-level lines —
and that notice occurs exactly once in the whole report. -/
theorem C8_sentence_block_policy (data1 data2 : Json) :
    (∀ n, PerSentence.SLine.zinHeader n ∈ PerSentence.compare_json_files data1 data2 ↔
      (n < (pyGetList data1 "sentences").length ∧
       n < (pyGetList data2 "sentences").length ∧
       PerSentence.sentence_pair_differs
         ((pyGetList data1 "sentences").getD n Json.null)
         ((pyGetList data2 "sentences").getD n Json.null))) ∧
    (∀ i, (pyGetList data1 "sentences").length ≤ i →
      i < (pyGetList data2 "sentences").length →
      PerSentence.sentence_block (pyGetList data1 "sentences")
        (pyGetList data2 "sentences") i = [PerSentence.SLine.zinOntbreekt i 1] ∧
      (PerSentence.compare_json_files data1 data2).countP
        (PerSentence.slineIsZinOntbreekt i 1) = 1) ∧
    (∀ i, i < (pyGetList data1 "sentences").length →
      (pyGetList data2 "sentences").length ≤ i →
      PerSentence.sentence_block (pyGetList data1 "sentences")
        (pyGetList data2 "sentences") i = [PerSentence.SLine.zinOntbreekt i 2] ∧
      (PerSentence.compare_json_files data1 data2).countP
        (PerSentence.slineIsZinOntbreekt i 2) = 1) := by
  refine ⟨fun n => PerSentence.zinHeader_mem_compare_iff data1 data2 n, ?_, ?_⟩
  · intro i hi1 hi2
    refine ⟨PerSentence.sentence_block_missing1 hi1, ?_⟩
    rw [PerSentence.compare_json_files_def]
    have hcount : (List.range (max (pyGetList data1 "sentences").length
        (pyGetList data2 "sentences").length)).count i = 1 :=
      List.count_eq_one_of_mem (List.nodup_range _) (List.mem_range.mpr (by omega))
    have hother : ∀ x ∈ List.range (max (pyGetList data1 "sentences").length
        (pyGetList data2 "sentences").length), x ≠ i →
        ((PerSentence.sentence_block (pyGetList data1 "sentences")
          (pyGetList data2 "sentences") x).countP
          (PerSentence.slineIsZinOntbreekt i 1)) = 0 := by
      intro x _ hxne
      rw [List.countP_eq_zero]
      intro line hline hp
      rw [PerSentence.slineIsZinOntbreekt_eq_true_iff] at hp
      subst hp
      exact hxne (PerSentence.zinOntbreekt_mem_sentence_block hline).symm
    rw [countP_flatMap_single hcount hother, PerSentence.sentence_block_missing1 hi1]
    simp [List.countP_cons, PerSentence.slineIsZinOntbreekt]
  · intro i hi1 hi2
    refine ⟨PerSentence.sentence_block_missing2 hi1 hi2, ?_⟩
    rw [PerSentence.compare_json_files_def]
    have hcount : (List.range (max (pyGetList data1 "sentences").length
        (pyGetList data2 "sentences").length)).count i = 1 :=
      List.count_eq_one_of_mem (List.nodup_range _) (List.mem_range.mpr (by omega))
    have hother : ∀ x ∈ List.range (max (pyGetList data1 "sentences").length
        (pyGetList data2 "sentences").length), x ≠ i →
        ((PerSentence.sentence_block (pyGetList data1 "sentences")
          (pyGetList data2 "sentences") x).countP
          (PerSentence.slineIsZinOntbreekt i 2)) = 0 := by
      intro x _ hxne
      rw [List.countP_eq_zero]
      intro line hline hp
      rw [PerSentence.slineIsZinOntbreekt_eq_true_iff] at hp
      subst hp
      exact hxne (PerSentence.zinOntbreekt_mem_sentence_block hline).symm
    rw [countP_flatMap_single hcount hother, PerSentence.sentence_block_missing2 hi1 hi2]
    simp [List.countP_cons, PerSentence.slineIsZinOntbreekt]

/-- C8 witness: against a two-sentence document, a one-sentence document
yields exactly the single missing-sentence notice for index 2. -/
theorem C8_witness :
    PerSentence.sentence_block (pyGetList missDoc1 "sentences")
      (pyGetList missDoc2 "sentences") 1 = [PerSentence.SLine.zinOntbreekt 1 1] ∧
    (PerSentence.compare_json_files missDoc1 missDoc2).countP
      (PerSentence.slineIsZinOntbreekt 1 1) = 1 :=
  (C8_sentence_block_policy missDoc1 missDoc2).2.1 1 (by decide) (by decide)
